import Mathlib

/-!
Shallow embedding of the role-framing experiment system
(`src/models/experiment.py`, `src/evaluator.py`, `src/api_server.py`,
`src/api/openrouter_client.py`, `src/experiment_runner.py`) and proofs of the
specification claims about it.

Modelling conventions:
* Python floats are modelled as exact rationals (`Rat`); no claim in scope
  depends on floating-point rounding.
* Python dicts appearing as JSON data are modelled by association lists inside
  the `JValue` inductive; keys are unique in every value produced by the code.
* Wall-clock values (`datetime.now().isoformat()`, `uuid.uuid4()`) are
  parameters of the embedding, since they are ambient inputs of the code.
* The external network is a parameter: each call site receives the outcome of
  its i-th call from a function `Nat → Except String _` (error = the message of
  the raised exception).
-/

set_option maxRecDepth 4000

/-- JSON values as produced by Python's `json` module: objects are ordered
association lists (Python dicts preserve insertion order). -/
inductive JValue where
  | jnull : JValue
  | jbool : Bool → JValue
  | jnum : Rat → JValue
  | jstr : String → JValue
  | jarr : List JValue → JValue
  | jobj : List (String × JValue) → JValue
deriving Repr

/-- Python truthiness of a JSON value (`if r.get("evaluation")`): `None`,
`False`, `0`, `""`, `[]` and `{}` are falsy, everything else truthy. -/
def JValue.truthy : JValue → Bool
  | .jnull => false
  | .jbool b => b
  | .jnum q => q != 0
  | .jstr s => s ≠ ""
  | .jarr xs => !xs.isEmpty
  | .jobj fs => !fs.isEmpty

/-- Dict lookup `d.get(k)` / `d[k]` on a JSON object's field list (Python dicts
have unique keys; first binding wins in the model). -/
def JValue.getField : JValue → String → Option JValue
  | .jobj fs, k => fs.lookup k
  | _, _ => none

/-- `EvaluationScores` dataclass (`src/models/experiment.py`). -/
structure EvaluationScores where
  rationality : Rat
  comprehensiveness : Rat
  analytical_depth : Rat
  integrity : Rat
  bias_mitigation : Rat
  overall_justification : String
deriving Repr, DecidableEq

/-- `EvaluationScores.average_score`. -/
def EvaluationScores.average_score (e : EvaluationScores) : Rat :=
  (e.rationality + e.comprehensiveness + e.analytical_depth +
    e.integrity + e.bias_mitigation) / 5

/-- `EvaluationScores.to_dict` (`dataclasses.asdict`, declaration field order). -/
def EvaluationScores.to_dict (e : EvaluationScores) : JValue :=
  .jobj [("rationality", .jnum e.rationality),
         ("comprehensiveness", .jnum e.comprehensiveness),
         ("analytical_depth", .jnum e.analytical_depth),
         ("integrity", .jnum e.integrity),
         ("bias_mitigation", .jnum e.bias_mitigation),
         ("overall_justification", .jstr e.overall_justification)]

/-- `ExperimentResponse` dataclass.  `timestamp` is a `String` because
`__post_init__` replaces `None` by `datetime.now().isoformat()`, so a
constructed record always carries a string timestamp. -/
structure ExperimentResponse where
  scenario_id : String
  role_id : String
  model : String
  iteration : Nat
  prompt : String
  response : String
  evaluation : Option EvaluationScores
  timestamp : String
deriving Repr, DecidableEq

/-- `ExperimentResponse.to_dict`: `asdict` in field order, the evaluation
nested (or `null` when absent). -/
def ExperimentResponse.to_dict (r : ExperimentResponse) : JValue :=
  .jobj [("scenario_id", .jstr r.scenario_id),
         ("role_id", .jstr r.role_id),
         ("model", .jstr r.model),
         ("iteration", .jnum (r.iteration : Rat)),
         ("prompt", .jstr r.prompt),
         ("response", .jstr r.response),
         ("evaluation", match r.evaluation with
                        | some e => e.to_dict
                        | none => .jnull),
         ("timestamp", .jstr r.timestamp)]

/-- `ExperimentRun` dataclass.  `config` is an arbitrary JSON object, as in the
source where it is a plain dict. -/
structure ExperimentRun where
  run_id : String
  timestamp : String
  config : JValue
  responses : List ExperimentResponse
deriving Repr

/-- `ExperimentRun.to_dict`. -/
def ExperimentRun.to_dict (run : ExperimentRun) : JValue :=
  .jobj [("run_id", .jstr run.run_id),
         ("timestamp", .jstr run.timestamp),
         ("config", run.config),
         ("responses", .jarr (run.responses.map ExperimentResponse.to_dict))]

/-- The exact six keyword names `EvaluationScores(**d)` accepts. -/
def evaluationFieldNames : List String :=
  ["rationality", "comprehensiveness", "analytical_depth", "integrity",
   "bias_mitigation", "overall_justification"]

/-- `EvaluationScores(**r["evaluation"])`: Python rejects unexpected or missing
keyword arguments, so the dict must carry exactly the six field names.  The
model additionally requires score values to be numbers and the justification to
be a string (the dataclass itself would accept any value; such ill-typed
records are unrepresentable in the typed model and yield `none`). -/
def EvaluationScores.from_obj (v : JValue) : Option EvaluationScores := do
  match v with
  | .jobj fs =>
    if (fs.map Prod.fst).all (fun k => k ∈ evaluationFieldNames) then
      match v.getField "rationality", v.getField "comprehensiveness",
            v.getField "analytical_depth", v.getField "integrity",
            v.getField "bias_mitigation", v.getField "overall_justification" with
      | some (.jnum r), some (.jnum c), some (.jnum a), some (.jnum i),
        some (.jnum b), some (.jstr j) =>
          some ⟨r, c, a, i, b, j⟩
      | _, _, _, _, _, _ => none
    else none
  | _ => none

/-- Read a JSON number back as the `iteration : Nat` field. -/
def jToNat : JValue → Option Nat
  | .jnum q => if q.den = 1 ∧ 0 ≤ q.num then some q.num.toNat else none
  | _ => none

/-- One response object of `ExperimentRun.from_json`: field accesses
`r["scenario_id"]` etc. (`KeyError` → `none`), `r.get("evaluation")` guarded by
Python truthiness, `r.get("timestamp")` with the `__post_init__` `now`
fallback. -/
def ExperimentResponse.from_obj (now : String) (r : JValue) :
    Option ExperimentResponse := do
  let .jstr sid ← r.getField "scenario_id" | none
  let .jstr rid ← r.getField "role_id" | none
  let .jstr model ← r.getField "model" | none
  let some iterv := r.getField "iteration" | none
  let some iter := jToNat iterv | none
  let .jstr prompt ← r.getField "prompt" | none
  let .jstr resp ← r.getField "response" | none
  let ev ← match r.getField "evaluation" with
           | some e =>
             if e.truthy then
               match EvaluationScores.from_obj e with
               | some sc => some (some sc)
               | none => none
             else some none
           | none => some none
  let ts := match r.getField "timestamp" with
            | some (.jstr t) => some t
            | some .jnull => none
            | some _ => none
            | none => none
  some ⟨sid, rid, model, iter, prompt, resp, ev, ts.getD now⟩

/-- `ExperimentRun.from_json` applied to already-loaded JSON data (the
`json.load` text layer round-trips JSON documents and is modelled as the
identity on `JValue`).  `now` is the wall clock used by `__post_init__` when a
response lacks a timestamp. -/
def mapOrNone {α β : Type} (f : α → Option β) : List α → Option (List β)
  | [] => some []
  | x :: xs =>
    match f x, mapOrNone f xs with
    | some y, some ys => some (y :: ys)
    | _, _ => none

def ExperimentRun.from_data (now : String) (data : JValue) : Option ExperimentRun := do
  let some (.jarr rs) := data.getField "responses" | none
  let responses ← mapOrNone (ExperimentResponse.from_obj now) rs
  let .jstr run_id ← data.getField "run_id" | none
  let .jstr ts ← data.getField "timestamp" | none
  let some config := data.getField "config" | none
  some ⟨run_id, ts, config, responses⟩

/-- Python `\s` (ASCII whitespace classes; the texts in scope are ASCII). -/
def isPySpace (c : Char) : Bool :=
  c = ' ' || c = '\t' || c = '\n' || c = '\x0d' || c = '\x0b' || c = '\x0c'

/-- Python `str.strip()`. -/
def pyStrip (s : String) : String :=
  ⟨((s.data.dropWhile isPySpace).reverse.dropWhile isPySpace).reverse⟩

/-- Python `\w`: word characters (ASCII letters, digits, underscore). -/
def wordChar (c : Char) : Bool := c.isAlphanum || c = '_'

/-- The character class `[ABCD]` under `re.IGNORECASE`. -/
def isABCDchar (c : Char) : Bool :=
  c = 'A' || c = 'B' || c = 'C' || c = 'D' || c = 'a' || c = 'b' || c = 'c' || c = 'd'

/-- Greedy `\s*`. -/
def dropPySpaces (cs : List Char) : List Char := cs.dropWhile isPySpace

/-- Match a literal pattern case-insensitively (`re.IGNORECASE`), returning the
rest of the input on success. -/
def matchCI : List Char → List Char → Option (List Char)
  | [], cs => some cs
  | _ :: _, [] => none
  | p :: ps, c :: cs => if p.toLower = c.toLower then matchCI ps cs else none

/-- `Choice:\s*Option\s+([ABCD])` anchored at the head of the input: the `\s*`
and `\s+` munches are exact because the following required characters are never
whitespace. -/
def choiceP1At (cs : List Char) : Option Char :=
  match matchCI "choice:".data cs with
  | none => none
  | some r =>
    match matchCI "option".data (dropPySpaces r) with
    | none => none
    | some r2 =>
      match r2 with
      | c :: r3 =>
        if isPySpace c then
          match dropPySpaces r3 with
          | d :: _ => if isABCDchar d then some d else none
          | [] => none
        else none
      | [] => none

/-- `re.search` of pattern 1 of `extract_choice` (`src/api_server.py`):
leftmost occurrence, returning the captured group character. -/
def searchP1 : List Char → Option Char
  | [] => none
  | c :: cs =>
    match choiceP1At (c :: cs) with
    | some d => some d
    | none => searchP1 cs

/-- `re.search` of pattern 2, `\b([ABCD])\s*\)`: scan left to right tracking
the previous character for the word boundary `\b`. -/
def searchP2 : Option Char → List Char → Option Char
  | _, [] => none
  | prev, c :: cs =>
    if isABCDchar c
        && (match prev with | none => true | some p => !wordChar p)
        && (match dropPySpaces cs with | ')' :: _ => true | _ => false) then
      some c
    else searchP2 (some c) cs

/-- The alternation of pattern 3, in source order. -/
def p3Verbs : List String :=
  ["option", "choice", "select", "answer", "decision", "recommendation", "choose"]

/-- One alternative of pattern 3 anchored at the head: verb, `\s+`, `[ABCD]`. -/
def verbAt (v : List Char) (cs : List Char) : Option Char :=
  match matchCI v cs with
  | none => none
  | some [] => none
  | some (c :: r) =>
    if isPySpace c then
      match dropPySpaces r with
      | d :: _ => if isABCDchar d then some d else none
      | [] => none
    else none

/-- Pattern 3 anchored at the head: try the alternatives in order
(backtracking: if one verb matches but `\s+[ABCD]` fails, the next
alternative is tried at the same position). -/
def anyVerbAt (cs : List Char) : Option Char :=
  verbAt "option".data cs <|> verbAt "choice".data cs <|>
  verbAt "select".data cs <|> verbAt "answer".data cs <|>
  verbAt "decision".data cs <|> verbAt "recommendation".data cs <|>
  verbAt "choose".data cs

/-- `re.search` of pattern 3: leftmost position, alternatives in order. -/
def searchP3 : List Char → Option Char
  | [] => none
  | c :: cs =>
    match anyVerbAt (c :: cs) with
    | some d => some d
    | none => searchP3 cs

/-- `extract_choice` (`src/api_server.py`): empty guard, `strip`, then the
three-pattern cascade, uppercasing the captured label. -/
def extract_choice (response_text : String) : String :=
  if response_text = "" then ""
  else
    let text := pyStrip response_text
    match searchP1 text.data with
    | some c => (Char.toUpper c).toString
    | none =>
      match searchP2 none text.data with
      | some c => (Char.toUpper c).toString
      | none =>
        match searchP3 text.data with
        | some c => (Char.toUpper c).toString
        | none => ""

/-- Case-sensitive literal match, returning the rest on success. -/
def lit : List Char → List Char → Option (List Char)
  | [], cs => some cs
  | _ :: _, [] => none
  | p :: ps, c :: cs => if p = c then lit ps cs else none

/-- Does the input start with a code fence? -/
def startsWithFence (cs : List Char) : Bool := (lit "```".data cs).isSome

/-- The lazy `.*?` of stage 1 of `_extract_json`
(`src/evaluator.py`): extend the group to the earliest `}` after which
`\s*`+fence matches; a rejected `}` becomes group content (`re.DOTALL`). -/
def lazyFence (pre : List Char) : List Char → Option (List Char)
  | [] => none
  | c :: rest =>
    if c = '\x7d' then
      if startsWithFence (dropPySpaces rest) then some (('\x7d' :: pre).reverse)
      else lazyFence ('\x7d' :: pre) rest
    else lazyFence (c :: pre) rest

/-- Stage 1 anchored at one position: three backticks, optional literal
`json` (greedy, with backtracking to the skipped alternative), `\s*`, then the
lazily-closed brace group followed by `\s*` and a closing fence. -/
def stage1At (cs : List Char) : Option (List Char) :=
  match lit "```".data cs with
  | none => none
  | some r =>
    let tryBody : List Char → Option (List Char) := fun r' =>
      match dropPySpaces r' with
      | '\x7b' :: rest => lazyFence ['\x7b'] rest
      | _ => none
    match lit "json".data r with
    | some rj => tryBody rj <|> tryBody r
    | none => tryBody r

/-- `re.search` of stage 1: leftmost matching position. -/
def searchStage1 : List Char → Option (List Char)
  | [] => none
  | c :: cs =>
    match stage1At (c :: cs) with
    | some g => some g
    | none => searchStage1 cs

/-- Scanner equivalent to `\{[^{}]*(?:\{[^{}]*\}[^{}]*)*\}` anchored after an
opening `{` (depth 0 = outer level, 1 = inside a one-level nested group): the
match ends at the first depth-0 `}`; a second nesting level or end of input
fails the whole anchored match, exactly as the backtracking regex does. -/
def stage2Go (acc : List Char) : Nat → List Char → Option (List Char)
  | _, [] => none
  | 0, c :: rest =>
    if c = '\x7d' then some (('\x7d' :: acc).reverse)
    else if c = '\x7b' then stage2Go (c :: acc) 1 rest
    else stage2Go (c :: acc) 0 rest
  | 1, c :: rest =>
    if c = '\x7d' then stage2Go (c :: acc) 0 rest
    else if c = '\x7b' then none
    else stage2Go (c :: acc) 1 rest
  | _ + 2, _ => none

/-- Stage 2 anchored at one position. -/
def stage2At : List Char → Option (List Char)
  | '\x7b' :: rest => stage2Go ['\x7b'] 0 rest
  | _ => none

/-- `re.search` of stage 2: leftmost matching position. -/
def searchStage2 : List Char → Option (List Char)
  | [] => none
  | c :: cs =>
    match stage2At (c :: cs) with
    | some g => some g
    | none => searchStage2 cs

/-- Stage 3, `\{.*\}` with `re.DOTALL`: from the first `{` to the last `}` of
the whole text (greedy), provided such a pair exists. -/
def searchStage3 (cs : List Char) : Option (List Char) :=
  match cs.dropWhile (fun c => c ≠ '\x7b') with
  | [] => none
  | _ :: rest =>
    let r2 := rest.reverse.dropWhile (fun c => c ≠ '\x7d')
    if r2.isEmpty then none else some ('\x7b' :: r2.reverse)

/-- `LLMJudgeEvaluator._extract_json`: empty guard, then the three-stage
cascade, returning the empty string when no stage matches. -/
def extract_json (text : String) : String :=
  if text = "" then ""
  else
    match searchStage1 text.data with
    | some g => ⟨g⟩
    | none =>
      match searchStage2 text.data with
      | some g => ⟨g⟩
      | none =>
        match searchStage3 text.data with
        | some g => ⟨g⟩
        | none => ""

/-- JSON whitespace accepted by `json.loads`. -/
def jsonSkipWs (cs : List Char) : List Char :=
  cs.dropWhile (fun c => c = ' ' || c = '\t' || c = '\n' || c = '\x0d')

def hexVal (c : Char) : Option Nat :=
  if '0' ≤ c ∧ c ≤ '9' then some (c.toNat - 48)
  else if 'a' ≤ c ∧ c ≤ 'f' then some (c.toNat - 87)
  else if 'A' ≤ c ∧ c ≤ 'F' then some (c.toNat - 55)
  else none

/-- JSON string body after the opening quote: content and rest after the
closing quote.  Fuel exceeds the input length, so exhaustion is unreachable. -/
def parseStrChars : Nat → List Char → Except String (List Char × List Char)
  | 0, _ => .error "Unterminated string starting at"
  | _ + 1, [] => .error "Unterminated string starting at"
  | fuel + 1, c :: rest =>
    if c = '"' then .ok ([], rest)
    else if c = '\\' then
      match rest with
      | [] => .error "Unterminated string starting at"
      | e :: r =>
        let cont : Char → List Char → Except String (List Char × List Char) :=
          fun ch r' =>
            match parseStrChars fuel r' with
            | .error msg => .error msg
            | .ok (cs, rest') => .ok (ch :: cs, rest')
        if e = '"' then cont '"' r
        else if e = '\\' then cont '\\' r
        else if e = '/' then cont '/' r
        else if e = 'b' then cont '\x08' r
        else if e = 'f' then cont '\x0c' r
        else if e = 'n' then cont '\n' r
        else if e = 'r' then cont '\x0d' r
        else if e = 't' then cont '\t' r
        else if e = 'u' then
          match r with
          | h1 :: h2 :: h3 :: h4 :: r' =>
            match hexVal h1, hexVal h2, hexVal h3, hexVal h4 with
            | some a, some b, some c', some d =>
              let n := ((a * 16 + b) * 16 + c') * 16 + d
              if h : n.isValidChar then cont (Char.ofNatAux n h) r' else cont '�' r'
            | _, _, _, _ => .error "Invalid \\uXXXX escape"
          | _ => .error "Invalid \\uXXXX escape"
        else .error "Invalid \\escape"
    else
      match parseStrChars fuel rest with
      | .error msg => .error msg
      | .ok (cs, rest') => .ok (c :: cs, rest')

def natOfDigits (ds : List Char) : Nat :=
  ds.foldl (fun n c => n * 10 + (c.toNat - 48)) 0

def parseExpDigits (m : Rat) (cs : List Char) : Except String (Rat × List Char) :=
  let (sgn, cs1) : Int × List Char :=
    match cs with
    | '+' :: r => (1, r)
    | '-' :: r => (-1, r)
    | _ => (1, cs)
  let ds := cs1.takeWhile Char.isDigit
  let r1 := cs1.dropWhile Char.isDigit
  if ds.isEmpty then .error "Expecting value"
  else .ok (m * (10 : Rat) ^ (sgn * (natOfDigits ds : Int)), r1)

def parseExpPart (m : Rat) (cs : List Char) : Except String (Rat × List Char) :=
  match cs with
  | 'e' :: r => parseExpDigits m r
  | 'E' :: r => parseExpDigits m r
  | _ => .ok (m, cs)

/-- A JSON number (integer, fraction, exponent) as an exact rational. -/
def parseNumAt (cs : List Char) : Except String (Rat × List Char) :=
  let (neg, cs1) : Bool × List Char :=
    match cs with
    | '-' :: r => (true, r)
    | _ => (false, cs)
  let ds := cs1.takeWhile Char.isDigit
  let r1 := cs1.dropWhile Char.isDigit
  if ds.isEmpty then .error "Expecting value"
  else
    let ip : Rat := (natOfDigits ds : Nat)
    match r1 with
    | '.' :: r =>
      let fs := r.takeWhile Char.isDigit
      let r2 := r.dropWhile Char.isDigit
      if fs.isEmpty then .error "Expecting value"
      else
        let m : Rat := ip + (natOfDigits fs : Rat) / ((10 : Rat) ^ fs.length)
        parseExpPart (if neg then -m else m) r2
    | _ => parseExpPart (if neg then -ip else ip) r1

/-- Python dict insertion: an existing key keeps its position, its value is
replaced; a new key is appended (`json.loads` keeps the last duplicate). -/
def dictInsert (fs : List (String × JValue)) (k : String) (v : JValue) :
    List (String × JValue) :=
  if fs.any (fun p => p.1 = k) then
    fs.map (fun p => if p.1 = k then (k, v) else p)
  else fs ++ [(k, v)]

mutual

/-- `json.loads` value grammar (fuel exceeds input length, so exhaustion is
unreachable; error messages carry the class of the Python
`json.JSONDecodeError` without its position suffix). -/
def parseVal : Nat → List Char → Except String (JValue × List Char)
  | 0, _ => .error "Expecting value"
  | fuel + 1, cs =>
    match jsonSkipWs cs with
    | [] => .error "Expecting value"
    | '"' :: r =>
      match parseStrChars (r.length + 1) r with
      | .error e => .error e
      | .ok (content, rest) => .ok (.jstr ⟨content⟩, rest)
    | 't' :: r =>
      match lit "rue".data r with
      | some rest => .ok (.jbool true, rest)
      | none => .error "Expecting value"
    | 'f' :: r =>
      match lit "alse".data r with
      | some rest => .ok (.jbool false, rest)
      | none => .error "Expecting value"
    | 'n' :: r =>
      match lit "ull".data r with
      | some rest => .ok (.jnull, rest)
      | none => .error "Expecting value"
    | '[' :: r =>
      match jsonSkipWs r with
      | ']' :: rest => .ok (.jarr [], rest)
      | _ => parseArrRest fuel [] r
    | '\x7b' :: r =>
      match jsonSkipWs r with
      | '\x7d' :: rest => .ok (.jobj [], rest)
      | _ => parseObjRest fuel [] r
    | c :: r =>
      match parseNumAt (c :: r) with
      | .error e => .error e
      | .ok (q, rest) => .ok (.jnum q, rest)

/-- Array items after the opening bracket (at least one). -/
def parseArrRest : Nat → List JValue → List Char → Except String (JValue × List Char)
  | 0, _, _ => .error "Expecting value"
  | fuel + 1, acc, cs =>
    match parseVal fuel cs with
    | .error e => .error e
    | .ok (v, rest) =>
      match jsonSkipWs rest with
      | ',' :: r2 => parseArrRest fuel (acc ++ [v]) r2
      | ']' :: r2 => .ok (.jarr (acc ++ [v]), r2)
      | _ => .error "Expecting delimiter"

/-- Object members after the opening brace (at least one). -/
def parseObjRest : Nat → List (String × JValue) → List Char →
    Except String (JValue × List Char)
  | 0, _, _ => .error "Expecting value"
  | fuel + 1, acc, cs =>
    match jsonSkipWs cs with
    | '"' :: r =>
      match parseStrChars (r.length + 1) r with
      | .error e => .error e
      | .ok (kcs, r1) =>
        match jsonSkipWs r1 with
        | ':' :: r2 =>
          match parseVal fuel r2 with
          | .error e => .error e
          | .ok (v, r3) =>
            let acc' := dictInsert acc ⟨kcs⟩ v
            match jsonSkipWs r3 with
            | ',' :: r4 => parseObjRest fuel acc' r4
            | '\x7d' :: r4 => .ok (.jobj acc', r4)
            | _ => .error "Expecting delimiter"
        | _ => .error "Expecting colon delimiter"
    | _ => .error "Expecting property name enclosed in double quotes"

end

/-- `json.loads`: one value, then only trailing whitespace. -/
def parseJson (s : String) : Except String JValue :=
  match parseVal (s.length + 1) s.data with
  | .error e => .error e
  | .ok (v, rest) =>
    if (jsonSkipWs rest).isEmpty then .ok v else .error "Extra data"

/-- Simplified `repr` of a JSON value (used only when a judge supplies a
non-string `overall_justification`, which the dynamically-typed source stores
as-is; no claim in scope depends on this rendering). -/
def pyReprJ : JValue → String
  | .jnull => "None"
  | .jbool b => if b then "True" else "False"
  | .jnum q => toString q
  | .jstr s => "'" ++ s ++ "'"
  | .jarr _ => "[...]"
  | .jobj _ => "\x7b...\x7d"

/-- Python `repr` of a list of strings, as interpolated into the
missing-fields message (an f-string interpolation of the list). -/
def pyListRepr (xs : List String) : String :=
  "[" ++ String.intercalate ", " (xs.map (fun s => "'" ++ s ++ "'")) ++ "]"

/-- Python `float(v)` on a JSON-shaped value: numbers pass through, booleans
coerce to 0/1, numeric strings are parsed (whitespace-stripped, optional sign),
everything else raises (modelled as the error message class, without CPython's
exact wording for the type name). -/
def pyFloat : JValue → Except String Rat
  | .jnum q => .ok q
  | .jbool b => .ok (if b then 1 else 0)
  | .jstr s =>
    let t := pyStrip s
    let body : List Char :=
      match t.data with
      | '+' :: r => r
      | l => l
    match parseNumAt body with
    | .ok (q, rest) =>
      if rest.isEmpty then .ok q
      else .error ("could not convert string to float: '" ++ s ++ "'")
    | .error _ => .error ("could not convert string to float: '" ++ s ++ "'")
  | .jnull => .error "float() argument must be a string or a real number"
  | .jarr _ => .error "float() argument must be a string or a real number"
  | .jobj _ => .error "float() argument must be a string or a real number"

/-- The neutral-default `EvaluationScores` built in both `except` blocks of
`evaluate_response`. -/
def defaultScores (msg : String) : EvaluationScores :=
  ⟨3, 3, 3, 3, 3, "Evaluation error: " ++ msg⟩

/-- The required score fields checked by `evaluate_response`. -/
def required_fields : List String :=
  ["rationality", "comprehensiveness", "analytical_depth", "integrity",
   "bias_mitigation"]

/-- `evaluation_data.get("overall_justification", "")`.  A non-string value
would be stored raw by the dataclass; the typed model renders it. -/
def justificationOf (data : JValue) : String :=
  match data.getField "overall_justification" with
  | some (.jstr s) => s
  | some v => pyReprJ v
  | none => ""

/-- `missing_fields = [f for f in required_fields if f not in evaluation_data]`. -/
def missingFields (data : JValue) : List String :=
  required_fields.filter (fun f => (data.getField f).isNone)

/-- `LLMJudgeEvaluator.evaluate_response` (`src/evaluator.py`) as a function of
the judge call's outcome (`.error e` = the client raised with message `e`,
caught by the `except` blocks like every other failure; `.ok text` = the judge
text).  The `try`/`except` structure becomes explicit error propagation into
`defaultScores`; field conversions run in the source's argument order. -/
def evaluate_response (judgeResult : Except String String) : EvaluationScores :=
  match judgeResult with
  | .error e => defaultScores e
  | .ok judge_response =>
    if judge_response = "" ∨ pyStrip judge_response = "" then
      defaultScores "Empty response from judge model"
    else
      if extract_json judge_response = "" ∨ pyStrip (extract_json judge_response) = "" then
        defaultScores "Could not extract JSON from judge response"
      else
        match parseJson (extract_json judge_response) with
        | .error err => defaultScores ("Invalid JSON in judge response: " ++ err)
        | .ok data =>
          if missingFields data ≠ [] then
            defaultScores
              ("Missing required fields in evaluation: " ++ pyListRepr (missingFields data))
          else
            match pyFloat ((data.getField "rationality").getD .jnull) with
            | .error e => defaultScores e
            | .ok r =>
              match pyFloat ((data.getField "comprehensiveness").getD .jnull) with
              | .error e => defaultScores e
              | .ok c =>
                match pyFloat ((data.getField "analytical_depth").getD .jnull) with
                | .error e => defaultScores e
                | .ok a =>
                  match pyFloat ((data.getField "integrity").getD .jnull) with
                  | .error e => defaultScores e
                  | .ok i =>
                    match pyFloat ((data.getField "bias_mitigation").getD .jnull) with
                    | .error e => defaultScores e
                    | .ok b => ⟨r, c, a, i, b, justificationOf data⟩

/-- The observable pieces of a `requests.Response` that `chat_completion`
inspects: HTTP status, the result of `.json()` (which can raise a decode
error), and the raw text used in the 400 fallback message. -/
structure HttpResp where
  status : Nat
  jsonBody : Except String JValue
  text : String
deriving Repr

/-- The exception classes `chat_completion` can raise after the retry loop:
the explicit `ValueError`s, `requests.HTTPError` from `raise_for_status`, and
a decode error from the final `response.json()`. -/
inductive ClientErr where
  | valueError (msg : String)
  | httpError (status : Nat)
  | jsonDecodeError (msg : String)
deriving Repr, DecidableEq

/-- The timeouts passed to `requests.post` and the `time.sleep` waits, in
order. -/
structure CallTrace where
  timeouts : List Nat
  sleeps : List Nat
deriving Repr, DecidableEq

/-- `max_retries = 3`. -/
def max_retries : Nat := 3

/-- The `for attempt in range(max_retries)` retry loop of
`OpenRouterClient.chat_completion` (`src/api/openrouter_client.py`).
`attemptFn i` is the outcome of the i-th `requests.post` (`.error` = one of
the retried transient network exceptions).  The first component of the fuel
counts the loop iterations left (`range(3)`), so exhaustion without a break or
raise is unreachable. -/
def chatLoop (attemptFn : Nat → Except String HttpResp) :
    Nat → Nat → CallTrace → CallTrace × Except String HttpResp
  | 0, _, tr => (tr, .error "loop exhausted")
  | left + 1, attempt, tr =>
    let timeout := if attempt > 0 then 180 else 120
    let tr := { tr with timeouts := tr.timeouts ++ [timeout] }
    match attemptFn attempt with
    | .ok resp => (tr, .ok resp)
    | .error e =>
      if attempt = max_retries - 1 then
        (tr, .error ("Network error after " ++ toString max_retries ++
          " attempts: " ++ e ++
          "\nThis is likely a transient connection issue. Try rerunning the experiment."))
      else
        let wait_time := 2 ^ (attempt + 1)
        chatLoop attemptFn left (attempt + 1)
          { tr with sleeps := tr.sleeps ++ [wait_time] }

/-- `OpenRouterClient.chat_completion`: the retry loop, then the 400 handler,
`raise_for_status`, and the final `response.json()`.  The 400 fallback message
carries the response text excerpt (the payload dump is abbreviated away; no
claim depends on it). -/
def chat_completion (model : String) (attemptFn : Nat → Except String HttpResp) :
    CallTrace × Except ClientErr JValue :=
  match chatLoop attemptFn max_retries 0 ⟨[], []⟩ with
  | (tr, .error e) => (tr, .error (.valueError e))
  | (tr, .ok response) =>
    if response.status = 400 then
      match response.jsonBody with
      | .ok errData =>
        let errObj := (errData.getField "error").getD (.jobj [])
        let error_message :=
          match errObj.getField "message" with
          | some (.jstr m) => m
          | some v => pyReprJ v
          | none => "Unknown error"
        let error_type :=
          match errObj.getField "type" with
          | some (.jstr t) => t
          | some v => pyReprJ v
          | none => "Bad Request"
        (tr, .error (.valueError ("OpenRouter API 400 Bad Request: " ++ error_type ++
          "\nError message: " ++ error_message ++ "\nModel: " ++ model ++
          "\nCheck if the model name is correct and parameters are valid.")))
      | .error _ =>
        (tr, .error (.valueError ("OpenRouter API 400 Bad Request\nResponse: " ++
          ⟨response.text.data.take 500⟩ ++ "\nModel: " ++ model)))
    else if 400 ≤ response.status ∧ response.status < 600 then
      (tr, .error (.httpError response.status))
    else
      match response.jsonBody with
      | .ok v => (tr, .ok v)
      | .error m => (tr, .error (.jsonDecodeError m))

/-- One entry of `self.scenarios`. -/
structure Scenario where
  name : String
  description : String

/-- One entry of `self.roles`. -/
structure Role where
  name : String
  framing : String

/-- The runner's configuration state (`ExperimentRunner.__init__` plus the
ambient inputs): scenario/role tables, iteration count, sampling settings, the
judge settings read off `self.evaluator`, the generated `run_id`/timestamps,
and the outcomes of the i-th generation and judge network calls. -/
structure RunCtx where
  scenarioDefs : String → Scenario
  roleDefs : String → Role
  num_iterations : Nat
  temperature : Rat
  max_tokens : Nat
  judge_model : String
  judge_temperature : Rat
  run_id : String
  timestamp : String
  now : String
  gen : Nat → Except String String
  judge : Nat → Except String String

/-- Instrumented trace of the orchestration loop: stop-flag polls (with poll
index, the flag's answer, the number of appended responses at that moment, and
whether the poll is the mid-unit one after generation), progress-callback
invocations, generation calls, evaluator calls, and appends. -/
inductive Event where
  | poll (idx : Nat) (result : Bool) (appended : Nat) (mid : Bool)
  | progress (current total : Nat) (message : String)
  | genCall (idx : Nat) (model : String) (prompt : String)
  | evalCall (idx : Nat)
  | append (r : ExperimentResponse)
deriving Repr, DecidableEq

/-- Loop state of `run_experiment_with_progress`: the `responses` list, the
`current` progress counter, and the instrumentation counters and trace. -/
structure RunSt where
  responses : List ExperimentResponse
  current : Nat
  polls : Nat
  gens : Nat
  evals : Nat
  trace : List Event
deriving Repr

/-- One `stop_flag()` poll.  The flag is an external boolean read by a thunk;
since the loop is sequential, any behavior of the external world is captured
by a function of the poll index. -/
def doPoll (stop : Nat → Bool) (mid : Bool) (st : RunSt) : Bool × RunSt :=
  let b := stop st.polls
  (b, { st with polls := st.polls + 1,
                trace := st.trace ++ [Event.poll st.polls b st.responses.length mid] })

/-- `model.split('/')[-1]`: the suffix after the last slash (the whole string
when there is none). -/
def splitSlashLast (s : String) : String :=
  ⟨(s.data.reverse.takeWhile (fun c => c ≠ '/')).reverse⟩

/-- The progress message f-string. -/
def progressMsg (model sid rid : String) (iteration : Nat) : String :=
  "Model: " ++ splitSlashLast model ++ ", Scenario: " ++ sid ++
    ", Role: " ++ rid ++ ", Iteration: " ++ toString iteration

/-- `ExperimentRunner._build_prompt`. -/
def build_prompt (scenario : Scenario) (role : Role) : String :=
  role.framing ++ "\n\n" ++ scenario.description

/-- The innermost `for iteration in range(1, num_iterations + 1)` loop of
`run_experiment_with_progress` (`src/experiment_runner.py`): per unit — stop
poll (`break` returns control to the role loop), progress counter increment
and callback, generation (an exception propagates, carried as `some error`),
mid-unit stop poll, evaluation (never raises, by `evaluate_response`), append. -/
def runIters (ctx : RunCtx) (stop : Nat → Bool) (total : Nat)
    (model sid rid prompt : String) :
    List Nat → RunSt → RunSt × Option String
  | [], st => (st, none)
  | it :: rest, st =>
    let (b, st') := doPoll stop false st
    if b then (st', none)
    else
      let cur := st'.current + 1
      let msg := progressMsg model sid rid it
      let st1 := { st' with current := cur, trace := st'.trace ++ [Event.progress cur total msg] }
      let gidx := st1.gens
      let st2 := { st1 with gens := gidx + 1, trace := st1.trace ++ [Event.genCall gidx model prompt] }
      match ctx.gen gidx with
      | .error e => (st2, some e)
      | .ok response_text =>
        let (b2, st3) := doPoll stop true st2
        if b2 then (st3, none)
        else
          let eidx := st3.evals
          let st4 := { st3 with evals := eidx + 1, trace := st3.trace ++ [Event.evalCall eidx] }
          let evaluation := evaluate_response (ctx.judge eidx)
          let r : ExperimentResponse :=
            { scenario_id := sid, role_id := rid, model := model, iteration := it,
              prompt := prompt, response := response_text,
              evaluation := some evaluation, timestamp := ctx.now }
          let st5 := { st4 with responses := st4.responses ++ [r],
                                trace := st4.trace ++ [Event.append r] }
          runIters ctx stop total model sid rid prompt rest st5

/-- The `for role_id in roles` loop: stop poll at the top of each body, prompt
built once per (scenario, role), then the iteration loop; a `break` inside the
iteration loop returns here and the next role's top poll decides unwinding. -/
def runRoles (ctx : RunCtx) (stop : Nat → Bool) (total : Nat)
    (model sid : String) (scenario : Scenario) :
    List String → RunSt → RunSt × Option String
  | [], st => (st, none)
  | rid :: rest, st =>
    let (b, st') := doPoll stop false st
    if b then (st', none)
    else
      let role := ctx.roleDefs rid
      let prompt := build_prompt scenario role
      match runIters ctx stop total model sid rid prompt
          (List.range' 1 ctx.num_iterations) st' with
      | (st2, some e) => (st2, some e)
      | (st2, none) => runRoles ctx stop total model sid scenario rest st2

/-- The `for scenario_id in scenarios` loop. -/
def runScens (ctx : RunCtx) (stop : Nat → Bool) (total : Nat) (model : String)
    (roles : List String) :
    List String → RunSt → RunSt × Option String
  | [], st => (st, none)
  | sid :: rest, st =>
    let (b, st') := doPoll stop false st
    if b then (st', none)
    else
      let scenario := ctx.scenarioDefs sid
      match runRoles ctx stop total model sid scenario roles st' with
      | (st2, some e) => (st2, some e)
      | (st2, none) => runScens ctx stop total model roles rest st2

/-- The outer `for model in models` loop. -/
def runModels (ctx : RunCtx) (stop : Nat → Bool) (total : Nat)
    (scenarios roles : List String) :
    List String → RunSt → RunSt × Option String
  | [], st => (st, none)
  | model :: rest, st =>
    let (b, st') := doPoll stop false st
    if b then (st', none)
    else
      match runScens ctx stop total model roles scenarios st' with
      | (st2, some e) => (st2, some e)
      | (st2, none) => runModels ctx stop total scenarios roles rest st2

/-- The `config` dict stamped on the run (insertion order as in the source). -/
def runConfig (ctx : RunCtx) (models scenarios roles : List String) : JValue :=
  .jobj [("models", .jarr (models.map JValue.jstr)),
         ("scenarios", .jarr (scenarios.map JValue.jstr)),
         ("roles", .jarr (roles.map JValue.jstr)),
         ("num_iterations", .jnum (ctx.num_iterations : Rat)),
         ("temperature", .jnum ctx.temperature),
         ("judge_temperature", .jnum ctx.judge_temperature),
         ("max_tokens", .jnum (ctx.max_tokens : Rat)),
         ("judge_model", .jstr ctx.judge_model)]

/-- What the orchestrator produces: the event trace (callbacks fired and state
mutated before any exception) and either the returned `ExperimentRun` or the
propagated generation error. -/
structure RunOut where
  trace : List Event
  result : Except String ExperimentRun
  finalState : RunSt

/-- `run_experiment_with_progress`: `total` is computed once up front from the
caller-supplied lists (the `None` defaults are resolved by the caller, as
`run_experiment_async` does); the nested loops run with the stop flag and, on
normal return or stop, the accumulated responses are wrapped into an
`ExperimentRun` stamped with the config; a generation exception propagates. -/
def run_experiment_with_progress (ctx : RunCtx) (stop : Nat → Bool)
    (models scenarios roles : List String) : RunOut :=
  let total := models.length * scenarios.length * roles.length * ctx.num_iterations
  let st0 : RunSt := ⟨[], 0, 0, 0, 0, []⟩
  match runModels ctx stop total scenarios roles models st0 with
  | (st, some e) => ⟨st.trace, .error e, st⟩
  | (st, none) =>
      ⟨st.trace,
       .ok ⟨ctx.run_id, ctx.timestamp, runConfig ctx models scenarios roles, st.responses⟩,
       st⟩

/-- The status record `run_experiment_async` (`src/api_server.py`) leaves
behind, restricted to the fields the claims concern: the `status` string, the
`error` message, and the run written to the results file (`None` when nothing
is persisted). -/
structure AsyncStatus where
  status : String
  error : Option String
  savedRun : Option ExperimentRun

/-- The result handling of `run_experiment_async`: a raising
`run_experiment_with_progress` lands in the `except` block (status `error`,
nothing saved); a stop flag observed after the call yields status `stopped`
with nothing saved; otherwise the run is saved via `to_json` and the status is
`completed`. -/
def run_experiment_async (out : RunOut) (stoppedAfter : Bool) : AsyncStatus :=
  match out.result with
  | .error e => ⟨"error", some e, none⟩
  | .ok run =>
    if stoppedAfter then ⟨"stopped", some "Experiment was stopped by user", none⟩
    else ⟨"completed", none, some run⟩

/-- The unique key of a response within a run. -/
def keyOf (r : ExperimentResponse) : String × String × String × Nat :=
  (r.model, r.scenario_id, r.role_id, r.iteration)

/-- The nested cartesian-product enumeration of work-unit keys: models, then
scenarios, then roles, then iterations 1..N. -/
def prodEnum (models scenarios roles : List String) (n : Nat) :
    List (String × String × String × Nat) :=
  models.flatMap fun m =>
    scenarios.flatMap fun s =>
      roles.flatMap fun r =>
        (List.range' 1 n).map fun i => (m, s, r, i)

/-- The generation call never raises (every outcome is a text). -/
def genOk (ctx : RunCtx) : Prop := ∀ i, ∃ t, ctx.gen i = .ok t

/-- The polls that observed the stop flag as true, in trace order:
(poll index, responses appended at that moment, mid-unit?). -/
def truePolls (tr : List Event) : List (Nat × Nat × Bool) :=
  tr.filterMap fun e =>
    match e with
    | .poll i true a m => some (i, a, m)
    | _ => none

/-- Number of `append` events in a trace. -/
def countAppends (tr : List Event) : Nat :=
  (tr.filter fun e =>
    match e with
    | .append _ => true
    | _ => false).length

/-- Projection of a trace to its progress-callback and generation-call
events. -/
inductive GP where
  | pr (current total : Nat) : GP
  | gn (idx : Nat) : GP
deriving Repr, DecidableEq

def gpSeq (tr : List Event) : List GP :=
  tr.filterMap fun e =>
    match e with
    | .progress c t _ => some (.pr c t)
    | .genCall i _ _ => some (.gn i)
    | _ => none

/-- The progress/generation pattern of `n` started units beginning at unit
index `g0`: one callback, with `current` counting this unit as started and the
up-front `total`, immediately before each generation call. -/
def gpBlock (g0 total : Nat) : Nat → List GP
  | 0 => []
  | n + 1 => GP.pr (g0 + 1) total :: GP.gn g0 :: gpBlock (g0 + 1) total n

/-- Stop flag that a stop request turns on just before the p-th poll and that
stays on (the api layer sets the flag once and never clears it during a
run). -/
def stopT (p : Nat) : Nat → Bool := fun i => decide (p ≤ i)

/-- The never-true stop flag. -/
def sFalse : Nat → Bool := fun _ => false

/-- Polls a completed iteration loop consumes: two per unit. -/
def pollsIters (n : Nat) : Nat := 2 * n

/-- Polls a completed role loop consumes. -/
def pollsRoles (nIters : Nat) (rids : List String) : Nat :=
  rids.length * (1 + pollsIters nIters)

/-- Polls a completed scenario loop consumes. -/
def pollsScens (nIters : Nat) (roles : List String) (sids : List String) : Nat :=
  sids.length * (1 + pollsRoles nIters roles)

/-- Polls a completed model loop consumes. -/
def pollsModels (nIters : Nat) (scenarios roles : List String) (ms : List String) : Nat :=
  ms.length * (1 + pollsScens nIters roles scenarios)

/-- Work-unit keys contributed by one iteration loop. -/
def itersEnum (model sid rid : String) (its : List Nat) :
    List (String × String × String × Nat) :=
  its.map fun it => (model, sid, rid, it)

/-- Work-unit keys contributed by one role loop. -/
def rolesEnum (n : Nat) (model sid : String) (rids : List String) :
    List (String × String × String × Nat) :=
  rids.flatMap fun rid => itersEnum model sid rid (List.range' 1 n)

/-- Work-unit keys contributed by one scenario loop. -/
def scensEnum (n : Nat) (model : String) (roles : List String) (sids : List String) :
    List (String × String × String × Nat) :=
  sids.flatMap fun sid => rolesEnum n model sid roles

/-- Work-unit keys contributed by the model loop. -/
def modelsEnum (n : Nat) (scenarios roles : List String) (ms : List String) :
    List (String × String × String × Nat) :=
  ms.flatMap fun m => scensEnum n m roles scenarios

/-- The response record built by one successful work unit. -/
def unitResp (ctx : RunCtx) (model sid rid prompt : String) (it eidx : Nat)
    (t : String) : ExperimentResponse :=
  { scenario_id := sid, role_id := rid, model := model, iteration := it,
    prompt := prompt, response := t,
    evaluation := some (evaluate_response (ctx.judge eidx)), timestamp := ctx.now }

/-- The state after one fully successful work unit. -/
def unitStep (ctx : RunCtx) (total : Nat) (model sid rid prompt : String)
    (it : Nat) (st : RunSt) (t : String) : RunSt :=
  { responses := st.responses ++ [unitResp ctx model sid rid prompt it st.evals t],
    current := st.current + 1,
    polls := st.polls + 2,
    gens := st.gens + 1,
    evals := st.evals + 1,
    trace := st.trace ++
      [Event.poll st.polls false st.responses.length false,
       Event.progress (st.current + 1) total (progressMsg model sid rid it),
       Event.genCall st.gens model prompt,
       Event.poll (st.polls + 1) false st.responses.length true,
       Event.evalCall st.evals,
       Event.append (unitResp ctx model sid rid prompt it st.evals t)] }

/-- The state after a single poll that answered `b`. -/
def pollStep (b : Bool) (mid : Bool) (st : RunSt) : RunSt :=
  { st with polls := st.polls + 1,
            trace := st.trace ++ [Event.poll st.polls b st.responses.length mid] }

/-- Concrete runner context used by the witnesses: every generation succeeds
and nothing else is special. -/
def ctxEx : RunCtx :=
  { scenarioDefs := fun s => ⟨s, s ++ " description"⟩,
    roleDefs := fun r => ⟨r, r ++ " framing"⟩,
    num_iterations := 2, temperature := 1/10, max_tokens := 1000,
    judge_model := "j", judge_temperature := 0, run_id := "run", timestamp := "ts",
    now := "now", gen := fun _ => .ok "text", judge := fun _ => .ok "judge" }

/-- Runner context whose second generation call raises. -/
def ctxGenErr : RunCtx := { ctxEx with
  gen := fun i => if i = 0 then .ok "text" else .error "boom" }

theorem evaluationScores_from_obj_to_dict (e : EvaluationScores) :
    EvaluationScores.from_obj e.to_dict = some e := by
  simp [EvaluationScores.from_obj, EvaluationScores.to_dict, JValue.getField,
    List.lookup, evaluationFieldNames]

theorem experimentResponse_from_obj_to_dict (now : String) (r : ExperimentResponse) :
    ExperimentResponse.from_obj now r.to_dict = some r := by
  cases r with
  | mk sid rid model iter prompt resp ev ts =>
    cases ev with
    | none =>
      simp [ExperimentResponse.from_obj, ExperimentResponse.to_dict,
        JValue.getField, List.lookup, jToNat, JValue.truthy]
    | some e =>
      have htr : e.to_dict.truthy = true := by
        simp [EvaluationScores.to_dict, JValue.truthy]
      simp [ExperimentResponse.from_obj, ExperimentResponse.to_dict,
        JValue.getField, List.lookup, jToNat, htr,
        evaluationScores_from_obj_to_dict]

theorem mapOrNone_from_obj_map_to_dict (now : String) (rs : List ExperimentResponse) :
    mapOrNone (ExperimentResponse.from_obj now) (rs.map ExperimentResponse.to_dict) =
      some rs := by
  induction rs with
  | nil => rfl
  | cons r rest ih =>
      simp [mapOrNone, experimentResponse_from_obj_to_dict, ih]

/-- C6: deserializing the serialized JSON form of any `ExperimentRun` — zero or
more responses, each with or without an evaluation — reproduces a run equal to
the original (`from_json ∘ to_json` round-trip identity; the text layer of
`json.dump`/`json.load` is the identity on JSON documents). -/
theorem C6_run_roundtrip (now : String) (run : ExperimentRun) :
    ExperimentRun.from_data now run.to_dict = some run := by
  cases run with
  | mk run_id ts config responses =>
    simp [ExperimentRun.from_data, ExperimentRun.to_dict, JValue.getField,
      List.lookup, mapOrNone_from_obj_map_to_dict]

theorem choiceP1At_isABCD {cs : List Char} {d : Char}
    (h : choiceP1At cs = some d) : isABCDchar d = true := by
  unfold choiceP1At at h
  repeat' split at h
  all_goals simp_all

theorem searchP1_isABCD : ∀ {cs : List Char} {d : Char},
    searchP1 cs = some d → isABCDchar d = true
  | [], _, h => by simp [searchP1] at h
  | c :: cs, d, h => by
      unfold searchP1 at h
      rcases heq : choiceP1At (c :: cs) with _ | d'
      · rw [heq] at h; exact searchP1_isABCD h
      · rw [heq] at h
        simp at h
        subst h
        exact choiceP1At_isABCD heq

theorem searchP2_isABCD : ∀ {prev : Option Char} {cs : List Char} {d : Char},
    searchP2 prev cs = some d → isABCDchar d = true
  | _, [], _, h => by simp [searchP2] at h
  | prev, c :: cs, d, h => by
      unfold searchP2 at h
      split at h
      · simp_all
      · exact searchP2_isABCD h

theorem verbAt_isABCD {v cs : List Char} {d : Char}
    (h : verbAt v cs = some d) : isABCDchar d = true := by
  unfold verbAt at h
  repeat' split at h
  all_goals simp_all

theorem anyVerbAt_isABCD {cs : List Char} {d : Char}
    (h : anyVerbAt cs = some d) : isABCDchar d = true := by
  unfold anyVerbAt at h
  simp only [Option.orElse_eq_some] at h
  rcases h with h | ⟨-, h | ⟨-, h | ⟨-, h | ⟨-, h | ⟨-, h | ⟨-, h⟩⟩⟩⟩⟩⟩ <;>
    exact verbAt_isABCD h

theorem searchP3_isABCD : ∀ {cs : List Char} {d : Char},
    searchP3 cs = some d → isABCDchar d = true
  | [], _, h => by simp [searchP3] at h
  | c :: cs, d, h => by
      unfold searchP3 at h
      rcases heq : anyVerbAt (c :: cs) with _ | d'
      · rw [heq] at h; exact searchP3_isABCD h
      · rw [heq] at h
        simp at h
        subst h
        exact anyVerbAt_isABCD heq

theorem toUpper_mem_of_isABCD {c : Char} (h : isABCDchar c = true) :
    (Char.toUpper c).toString ∈ ["A", "B", "C", "D"] := by
  simp [isABCDchar] at h
  rcases h with ((((((rfl | rfl) | rfl) | rfl) | rfl) | rfl) | rfl) | rfl <;> decide

/-- C9: for every input text, `extract_choice` returns a value in the fixed
set {"", "A", "B", "C", "D"}: a matched label is always normalized to a single
uppercase letter among A–D even when matched in lowercase, and no other string
is ever returned. -/
theorem C9_choice_range (s : String) :
    extract_choice s ∈ ["", "A", "B", "C", "D"] := by
  unfold extract_choice
  by_cases hs : s = ""
  · simp [hs]
  · simp only [if_neg hs]
    rcases h1 : searchP1 (pyStrip s).data with _ | c
    · rcases h2 : searchP2 none (pyStrip s).data with _ | c
      · rcases h3 : searchP3 (pyStrip s).data with _ | c
        · simp
        · exact List.mem_cons_of_mem _
            (toUpper_mem_of_isABCD (searchP3_isABCD h3))
      · exact List.mem_cons_of_mem _
          (toUpper_mem_of_isABCD (searchP2_isABCD h2))
    · exact List.mem_cons_of_mem _
        (toUpper_mem_of_isABCD (searchP1_isABCD h1))

/-- C8: choice extraction is a case-insensitive ordered cascade where the
first matching pattern wins — (1) "Choice: Option X", (2) a bare "X)" token,
(3) a verb from option/choice/select/answer/decision/recommendation/choose
followed by a label — and returns "" when nothing matches; in particular
"Choice: Option B" yields "B", "I recommend option C" yields "C", and
"no clear answer here" yields "". -/
theorem C8_choice_cascade :
    extract_choice "Choice: Option B" = "B" ∧
    extract_choice "I recommend option C" = "C" ∧
    extract_choice "no clear answer here" = "" ∧
    (∀ s c, searchP1 (pyStrip s).data = some c →
      extract_choice s = (Char.toUpper c).toString) ∧
    (∀ s c, searchP1 (pyStrip s).data = none →
      searchP2 none (pyStrip s).data = some c →
      extract_choice s = (Char.toUpper c).toString) ∧
    (∀ s c, searchP1 (pyStrip s).data = none →
      searchP2 none (pyStrip s).data = none →
      searchP3 (pyStrip s).data = some c →
      extract_choice s = (Char.toUpper c).toString) ∧
    (∀ s, searchP1 (pyStrip s).data = none →
      searchP2 none (pyStrip s).data = none →
      searchP3 (pyStrip s).data = none →
      extract_choice s = "") := by
  refine ⟨by decide, by decide, by decide, ?_, ?_, ?_, ?_⟩
  · intro s c h1
    by_cases hs : s = ""
    · subst hs
      rw [show searchP1 (pyStrip "").data = none from by decide] at h1
      cases h1
    · simp only [extract_choice, if_neg hs, h1]
  · intro s c h1 h2
    by_cases hs : s = ""
    · subst hs
      rw [show searchP2 none (pyStrip "").data = none from by decide] at h2
      cases h2
    · simp only [extract_choice, if_neg hs, h1, h2]
  · intro s c h1 h2 h3
    by_cases hs : s = ""
    · subst hs
      rw [show searchP3 (pyStrip "").data = none from by decide] at h3
      cases h3
    · simp only [extract_choice, if_neg hs, h1, h2, h3]
  · intro s h1 h2 h3
    by_cases hs : s = ""
    · simp [hs, extract_choice]
    · simp only [extract_choice, if_neg hs, h1, h2, h3]

/-- Witness for C8: the cascade applied to a concrete input matched by no
pattern. -/
theorem C8_choice_cascade_witness : extract_choice "zz" = "" :=
  C8_choice_cascade.2.2.2.2.2.2 "zz" (by decide) (by decide) (by decide)

/-- C2: for every judge text input (empty, non-JSON, malformed JSON, JSON
missing score fields, or any other failure during extraction — including a
raising client call), `evaluate_response` never raises: it returns an
`EvaluationScores` with all five dimensions equal to 3.0 and a justification
naming the error; for every well-formed input whose extracted JSON parses and
carries all five fields with convertible values it returns those parsed
values. -/
theorem C2_evaluate_response_total_or_parsed :
    (∀ text : String,
      ((evaluate_response (.ok text)).rationality = 3 ∧
        (evaluate_response (.ok text)).comprehensiveness = 3 ∧
        (evaluate_response (.ok text)).analytical_depth = 3 ∧
        (evaluate_response (.ok text)).integrity = 3 ∧
        (evaluate_response (.ok text)).bias_mitigation = 3 ∧
        ∃ m, (evaluate_response (.ok text)).overall_justification =
          "Evaluation error: " ++ m) ∨
      (∃ data r c a i b,
        parseJson (extract_json text) = .ok data ∧
        missingFields data = [] ∧
        pyFloat ((data.getField "rationality").getD .jnull) = .ok r ∧
        pyFloat ((data.getField "comprehensiveness").getD .jnull) = .ok c ∧
        pyFloat ((data.getField "analytical_depth").getD .jnull) = .ok a ∧
        pyFloat ((data.getField "integrity").getD .jnull) = .ok i ∧
        pyFloat ((data.getField "bias_mitigation").getD .jnull) = .ok b ∧
        evaluate_response (.ok text) = ⟨r, c, a, i, b, justificationOf data⟩)) ∧
    (∀ e : String, evaluate_response (.error e) = defaultScores e) ∧
    evaluate_response (.ok "") = defaultScores "Empty response from judge model" ∧
    evaluate_response (.ok "no json here") =
      defaultScores "Could not extract JSON from judge response" ∧
    (∃ m, evaluate_response (.ok "\x7bbad\x7d") =
      defaultScores ("Invalid JSON in judge response: " ++ m)) ∧
    evaluate_response (.ok "\x7b\"rationality\": 4\x7d") =
      defaultScores ("Missing required fields in evaluation: " ++
        "['comprehensiveness', 'analytical_depth', 'integrity', 'bias_mitigation']") ∧
    evaluate_response (.ok ("\x7b\"rationality\": 4, \"comprehensiveness\": 5, " ++
        "\"analytical_depth\": 3, \"integrity\": 2, \"bias_mitigation\": 1, " ++
        "\"overall_justification\": \"ok\"\x7d")) = ⟨4, 5, 3, 2, 1, "ok"⟩ := by
  have leftCase : ∀ (text : String) (msg : String),
      evaluate_response (.ok text) = defaultScores msg →
      ((evaluate_response (.ok text)).rationality = 3 ∧
        (evaluate_response (.ok text)).comprehensiveness = 3 ∧
        (evaluate_response (.ok text)).analytical_depth = 3 ∧
        (evaluate_response (.ok text)).integrity = 3 ∧
        (evaluate_response (.ok text)).bias_mitigation = 3 ∧
        ∃ m, (evaluate_response (.ok text)).overall_justification =
          "Evaluation error: " ++ m) := by
    intro text msg h
    rw [h]
    exact ⟨rfl, rfl, rfl, rfl, rfl, ⟨msg, rfl⟩⟩
  refine ⟨?_, fun e => rfl, by decide, by decide,
    ⟨"Expecting property name enclosed in double quotes", by decide⟩,
    by decide, by decide⟩
  intro text
  by_cases h1 : text = "" ∨ pyStrip text = ""
  · exact Or.inl (leftCase text _
      (by simp only [evaluate_response, if_pos h1]; rfl))
  · by_cases h2 : extract_json text = "" ∨ pyStrip (extract_json text) = ""
    · exact Or.inl (leftCase text _
        (by simp only [evaluate_response, if_neg h1, if_pos h2]; rfl))
    · rcases hp : parseJson (extract_json text) with e | data
      · exact Or.inl (leftCase text _
          (by simp only [evaluate_response, if_neg h1, if_neg h2, hp]; rfl))
      · by_cases hm : missingFields data = []
        · rcases hr : pyFloat ((data.getField "rationality").getD .jnull) with e | r
          · exact Or.inl (leftCase text _
              (by simp only [evaluate_response, if_neg h1, if_neg h2, hp,
                if_neg (not_not_intro hm), hr]; rfl))
          · rcases hc : pyFloat ((data.getField "comprehensiveness").getD .jnull) with e | c
            · exact Or.inl (leftCase text _
                (by simp only [evaluate_response, if_neg h1, if_neg h2, hp,
                  if_neg (not_not_intro hm), hr, hc]; rfl))
            · rcases ha : pyFloat ((data.getField "analytical_depth").getD .jnull) with e | a
              · exact Or.inl (leftCase text _
                  (by simp only [evaluate_response, if_neg h1, if_neg h2, hp,
                    if_neg (not_not_intro hm), hr, hc, ha]; rfl))
              · rcases hi : pyFloat ((data.getField "integrity").getD .jnull) with e | i
                · exact Or.inl (leftCase text _
                    (by simp only [evaluate_response, if_neg h1, if_neg h2, hp,
                      if_neg (not_not_intro hm), hr, hc, ha, hi]; rfl))
                · rcases hb : pyFloat ((data.getField "bias_mitigation").getD .jnull) with e | b
                  · exact Or.inl (leftCase text _
                      (by simp only [evaluate_response, if_neg h1, if_neg h2, hp,
                        if_neg (not_not_intro hm), hr, hc, ha, hi, hb]; rfl))
                  · refine Or.inr ⟨data, r, c, a, i, b, rfl, hm, hr, hc, ha, hi, hb, ?_⟩
                    simp only [evaluate_response, if_neg h1, if_neg h2, hp,
                      if_neg (not_not_intro hm), hr, hc, ha, hi, hb]
        · exact Or.inl (leftCase text _
            (by simp only [evaluate_response, if_neg h1, if_neg h2, hp, if_pos hm]; rfl))

/-- C7: a call whose first two attempts fail transiently and whose third
succeeds returns the successful result after exponential no-jitter waits of 2
then 4 (total ≥ 6); the per-attempt timeout is 120 on the first attempt and
180 (larger) on every retry; and a call whose three attempts all fail raises a
`ValueError` carrying the attempt count and the last underlying cause. -/
theorem C7_retry_behavior
    (model : String) (attemptFn : Nat → Except String HttpResp)
    (r : HttpResp) (e0 e1 : String) (v : JValue)
    (h0 : attemptFn 0 = .error e0) (h1 : attemptFn 1 = .error e1)
    (h2 : attemptFn 2 = .ok r) (hst : r.status = 200) (hj : r.jsonBody = .ok v) :
    chat_completion model attemptFn =
      (⟨[120, 180, 180], [2, 4]⟩, .ok v) ∧
    ([2, 4].sum ≥ 6 ∧ (∀ t ∈ [180, 180], 120 < t)) ∧
    (∀ (attemptFn' : Nat → Except String HttpResp) (f0 f1 f2 : String),
      attemptFn' 0 = .error f0 → attemptFn' 1 = .error f1 →
      attemptFn' 2 = .error f2 →
      chat_completion model attemptFn' =
        (⟨[120, 180, 180], [2, 4]⟩, .error (.valueError
          ("Network error after 3 attempts: " ++ f2 ++
           "\nThis is likely a transient connection issue. Try rerunning the experiment.")))) := by
  refine ⟨?_, ⟨by decide, by decide⟩, ?_⟩
  · simp only [chat_completion, max_retries, chatLoop, h0, h1, h2]
    simp [hst, hj]
  · intro attemptFn' f0 f1 f2 g0 g1 g2
    simp only [chat_completion, max_retries, chatLoop, g0, g1, g2]
    rfl

/-- Witness for C7 at a concrete attempt function. -/
theorem C7_retry_behavior_witness :
    chat_completion "m"
        (fun i => if i = 2 then .ok ⟨200, .ok (.jbool true), "ok"⟩
                  else .error "connection reset") =
      (⟨[120, 180, 180], [2, 4]⟩, .ok (.jbool true)) :=
  (C7_retry_behavior "m"
    (fun i => if i = 2 then .ok ⟨200, .ok (.jbool true), "ok"⟩
              else .error "connection reset")
    ⟨200, .ok (.jbool true), "ok"⟩ "connection reset" "connection reset"
    (.jbool true) rfl rfl rfl rfl rfl).1

theorem runIters_cons_ok (ctx : RunCtx) (stop : Nat → Bool) (total : Nat)
    (model sid rid prompt : String) (it : Nat) (rest : List Nat) (st : RunSt)
    (t : String) (hb1 : stop st.polls = false) (ht : ctx.gen st.gens = .ok t)
    (hb2 : stop (st.polls + 1) = false) :
    runIters ctx stop total model sid rid prompt (it :: rest) st =
      runIters ctx stop total model sid rid prompt rest
        (unitStep ctx total model sid rid prompt it st t) := by
  simp only [runIters, doPoll, hb1, ht, hb2, Bool.false_eq_true, if_false]
  congr 1
  simp [unitStep, unitResp]

theorem runIters_cons_break (ctx : RunCtx) (stop : Nat → Bool) (total : Nat)
    (model sid rid prompt : String) (it : Nat) (rest : List Nat) (st : RunSt)
    (hb1 : stop st.polls = true) :
    runIters ctx stop total model sid rid prompt (it :: rest) st =
      (pollStep true false st, none) := by
  simp only [runIters, doPoll, hb1, if_true, pollStep]

theorem runIters_cons_genErr (ctx : RunCtx) (stop : Nat → Bool) (total : Nat)
    (model sid rid prompt : String) (it : Nat) (rest : List Nat) (st : RunSt)
    (e : String) (hb1 : stop st.polls = false) (ht : ctx.gen st.gens = .error e) :
    runIters ctx stop total model sid rid prompt (it :: rest) st =
      ({ st with current := st.current + 1,
                 polls := st.polls + 1,
                 gens := st.gens + 1,
                 trace := st.trace ++
                   [Event.poll st.polls false st.responses.length false,
                    Event.progress (st.current + 1) total (progressMsg model sid rid it),
                    Event.genCall st.gens model prompt] }, some e) := by
  simp only [runIters, doPoll, hb1, ht, Bool.false_eq_true, if_false]
  congr 1
  simp

theorem runIters_cons_midBreak (ctx : RunCtx) (stop : Nat → Bool) (total : Nat)
    (model sid rid prompt : String) (it : Nat) (rest : List Nat) (st : RunSt)
    (t : String) (hb1 : stop st.polls = false) (ht : ctx.gen st.gens = .ok t)
    (hb2 : stop (st.polls + 1) = true) :
    runIters ctx stop total model sid rid prompt (it :: rest) st =
      ({ st with current := st.current + 1,
                 polls := st.polls + 2,
                 gens := st.gens + 1,
                 trace := st.trace ++
                   [Event.poll st.polls false st.responses.length false,
                    Event.progress (st.current + 1) total (progressMsg model sid rid it),
                    Event.genCall st.gens model prompt,
                    Event.poll (st.polls + 1) true st.responses.length true] }, none) := by
  simp only [runIters, doPoll, hb1, ht, hb2, Bool.false_eq_true, if_false, if_true]
  congr 1
  simp

theorem runRoles_cons_go (ctx : RunCtx) (stop : Nat → Bool) (total : Nat)
    (model sid : String) (scenario : Scenario) (rid : String) (rest : List String)
    (st : RunSt) (hb : stop st.polls = false) :
    runRoles ctx stop total model sid scenario (rid :: rest) st =
      (match runIters ctx stop total model sid rid
          (build_prompt scenario (ctx.roleDefs rid))
          (List.range' 1 ctx.num_iterations) (pollStep false false st) with
       | (st2, some e) => (st2, some e)
       | (st2, none) => runRoles ctx stop total model sid scenario rest st2) := by
  simp only [runRoles, doPoll, hb, Bool.false_eq_true, if_false, pollStep]

theorem runRoles_cons_break (ctx : RunCtx) (stop : Nat → Bool) (total : Nat)
    (model sid : String) (scenario : Scenario) (rid : String) (rest : List String)
    (st : RunSt) (hb : stop st.polls = true) :
    runRoles ctx stop total model sid scenario (rid :: rest) st =
      (pollStep true false st, none) := by
  simp only [runRoles, doPoll, hb, if_true, pollStep]

theorem runScens_cons_go (ctx : RunCtx) (stop : Nat → Bool) (total : Nat)
    (model : String) (roles : List String) (sid : String) (rest : List String)
    (st : RunSt) (hb : stop st.polls = false) :
    runScens ctx stop total model roles (sid :: rest) st =
      (match runRoles ctx stop total model sid (ctx.scenarioDefs sid) roles
          (pollStep false false st) with
       | (st2, some e) => (st2, some e)
       | (st2, none) => runScens ctx stop total model roles rest st2) := by
  simp only [runScens, doPoll, hb, Bool.false_eq_true, if_false, pollStep]

theorem runScens_cons_break (ctx : RunCtx) (stop : Nat → Bool) (total : Nat)
    (model : String) (roles : List String) (sid : String) (rest : List String)
    (st : RunSt) (hb : stop st.polls = true) :
    runScens ctx stop total model roles (sid :: rest) st =
      (pollStep true false st, none) := by
  simp only [runScens, doPoll, hb, if_true, pollStep]

theorem runModels_cons_go (ctx : RunCtx) (stop : Nat → Bool) (total : Nat)
    (scenarios roles : List String) (model : String) (rest : List String)
    (st : RunSt) (hb : stop st.polls = false) :
    runModels ctx stop total scenarios roles (model :: rest) st =
      (match runScens ctx stop total model roles scenarios
          (pollStep false false st) with
       | (st2, some e) => (st2, some e)
       | (st2, none) => runModels ctx stop total scenarios roles rest st2) := by
  simp only [runModels, doPoll, hb, Bool.false_eq_true, if_false, pollStep]

theorem runModels_cons_break (ctx : RunCtx) (stop : Nat → Bool) (total : Nat)
    (scenarios roles : List String) (model : String) (rest : List String)
    (st : RunSt) (hb : stop st.polls = true) :
    runModels ctx stop total scenarios roles (model :: rest) st =
      (pollStep true false st, none) := by
  simp only [runModels, doPoll, hb, if_true, pollStep]

theorem runIters_sFalse (ctx : RunCtx) (total : Nat) (model sid rid prompt : String)
    (hgen : genOk ctx) :
    ∀ (its : List Nat) (st : RunSt), ∃ stF,
      runIters ctx sFalse total model sid rid prompt its st = (stF, none) ∧
      stF.responses.map keyOf = st.responses.map keyOf ++ itersEnum model sid rid its ∧
      stF.responses.length = st.responses.length + its.length ∧
      stF.polls = st.polls + 2 * its.length ∧
      stF.gens = st.gens + its.length ∧
      stF.evals = st.evals + its.length ∧
      stF.current = st.current + its.length ∧
      truePolls stF.trace = truePolls st.trace
  | [], st => ⟨st, rfl, by simp [itersEnum], by simp, by simp, by simp, by simp,
      by simp, rfl⟩
  | it :: rest, st => by
      obtain ⟨t, ht⟩ := hgen st.gens
      rw [runIters_cons_ok ctx sFalse total model sid rid prompt it rest st t rfl ht rfl]
      obtain ⟨stF, hrun, hkeys, hlen, hpolls, hgens, hevals, hcur, htp⟩ :=
        runIters_sFalse ctx total model sid rid prompt hgen rest
          (unitStep ctx total model sid rid prompt it st t)
      refine ⟨stF, hrun, ?_, ?_, ?_, ?_, ?_, ?_, ?_⟩
      · simp only [unitStep] at hkeys
        rw [hkeys]
        simp [itersEnum, unitResp, keyOf]
      · simp only [unitStep] at hlen
        rw [hlen]
        simp
        omega
      · simp only [unitStep] at hpolls
        rw [hpolls]
        simp
        omega
      · simp only [unitStep] at hgens
        rw [hgens]
        simp
        omega
      · simp only [unitStep] at hevals
        rw [hevals]
        simp
        omega
      · simp only [unitStep] at hcur
        rw [hcur]
        simp
        omega
      · simp only [unitStep] at htp
        rw [htp]
        simp [truePolls]

theorem runRoles_sFalse (ctx : RunCtx) (total : Nat) (model sid : String)
    (scenario : Scenario) (hgen : genOk ctx) :
    ∀ (rids : List String) (st : RunSt), ∃ stF,
      runRoles ctx sFalse total model sid scenario rids st = (stF, none) ∧
      stF.responses.map keyOf = st.responses.map keyOf ++
        rolesEnum ctx.num_iterations model sid rids ∧
      stF.responses.length = st.responses.length + rids.length * ctx.num_iterations ∧
      stF.polls = st.polls + rids.length * (1 + 2 * ctx.num_iterations) ∧
      stF.gens = st.gens + rids.length * ctx.num_iterations ∧
      stF.evals = st.evals + rids.length * ctx.num_iterations ∧
      stF.current = st.current + rids.length * ctx.num_iterations ∧
      truePolls stF.trace = truePolls st.trace
  | [], st => ⟨st, rfl, by simp [rolesEnum], by simp, by simp, by simp, by simp,
      by simp, rfl⟩
  | rid :: rest, st => by
      rw [runRoles_cons_go ctx sFalse total model sid scenario rid rest st rfl]
      obtain ⟨stI, hrunI, hkeysI, hlenI, hpollsI, hgensI, hevalsI, hcurI, htpI⟩ :=
        runIters_sFalse ctx total model sid rid
          (build_prompt scenario (ctx.roleDefs rid)) hgen
          (List.range' 1 ctx.num_iterations) (pollStep false false st)
      rw [hrunI]
      obtain ⟨stF, hrun, hkeys, hlen, hpolls, hgens, hevals, hcur, htp⟩ :=
        runRoles_sFalse ctx total model sid scenario hgen rest stI
      simp only [pollStep] at hkeysI hlenI hpollsI hgensI hevalsI hcurI htpI
      refine ⟨stF, hrun, ?_, ?_, ?_, ?_, ?_, ?_, ?_⟩
      · rw [hkeys, hkeysI]
        simp [rolesEnum]
      · rw [hlen, hlenI]
        simp
        ring
      · rw [hpolls, hpollsI]
        simp
        ring
      · rw [hgens, hgensI]
        simp
        ring
      · rw [hevals, hevalsI]
        simp
        ring
      · rw [hcur, hcurI]
        simp
        ring
      · rw [htp, htpI]
        simp [truePolls]

theorem runScens_sFalse (ctx : RunCtx) (total : Nat) (model : String)
    (roles : List String) (hgen : genOk ctx) :
    ∀ (sids : List String) (st : RunSt), ∃ stF,
      runScens ctx sFalse total model roles sids st = (stF, none) ∧
      stF.responses.map keyOf = st.responses.map keyOf ++
        scensEnum ctx.num_iterations model roles sids ∧
      stF.responses.length = st.responses.length +
        sids.length * (roles.length * ctx.num_iterations) ∧
      stF.polls = st.polls +
        sids.length * (1 + roles.length * (1 + 2 * ctx.num_iterations)) ∧
      stF.gens = st.gens + sids.length * (roles.length * ctx.num_iterations) ∧
      stF.evals = st.evals + sids.length * (roles.length * ctx.num_iterations) ∧
      stF.current = st.current + sids.length * (roles.length * ctx.num_iterations) ∧
      truePolls stF.trace = truePolls st.trace
  | [], st => ⟨st, rfl, by simp [scensEnum], by simp, by simp, by simp, by simp,
      by simp, rfl⟩
  | sid :: rest, st => by
      rw [runScens_cons_go ctx sFalse total model roles sid rest st rfl]
      obtain ⟨stI, hrunI, hkeysI, hlenI, hpollsI, hgensI, hevalsI, hcurI, htpI⟩ :=
        runRoles_sFalse ctx total model sid (ctx.scenarioDefs sid) hgen roles
          (pollStep false false st)
      rw [hrunI]
      obtain ⟨stF, hrun, hkeys, hlen, hpolls, hgens, hevals, hcur, htp⟩ :=
        runScens_sFalse ctx total model roles hgen rest stI
      simp only [pollStep] at hkeysI hlenI hpollsI hgensI hevalsI hcurI htpI
      refine ⟨stF, hrun, ?_, ?_, ?_, ?_, ?_, ?_, ?_⟩
      · rw [hkeys, hkeysI]
        simp [scensEnum]
      · rw [hlen, hlenI]
        simp
        ring
      · rw [hpolls, hpollsI]
        simp
        ring
      · rw [hgens, hgensI]
        simp
        ring
      · rw [hevals, hevalsI]
        simp
        ring
      · rw [hcur, hcurI]
        simp
        ring
      · rw [htp, htpI]
        simp [truePolls]

theorem runModels_sFalse (ctx : RunCtx) (total : Nat) (scenarios roles : List String)
    (hgen : genOk ctx) :
    ∀ (ms : List String) (st : RunSt), ∃ stF,
      runModels ctx sFalse total scenarios roles ms st = (stF, none) ∧
      stF.responses.map keyOf = st.responses.map keyOf ++
        modelsEnum ctx.num_iterations scenarios roles ms ∧
      stF.responses.length = st.responses.length +
        ms.length * (scenarios.length * (roles.length * ctx.num_iterations)) ∧
      stF.polls = st.polls + ms.length *
        (1 + scenarios.length * (1 + roles.length * (1 + 2 * ctx.num_iterations))) ∧
      stF.gens = st.gens +
        ms.length * (scenarios.length * (roles.length * ctx.num_iterations)) ∧
      stF.evals = st.evals +
        ms.length * (scenarios.length * (roles.length * ctx.num_iterations)) ∧
      stF.current = st.current +
        ms.length * (scenarios.length * (roles.length * ctx.num_iterations)) ∧
      truePolls stF.trace = truePolls st.trace
  | [], st => ⟨st, rfl, by simp [modelsEnum], by simp, by simp, by simp, by simp,
      by simp, rfl⟩
  | model :: rest, st => by
      rw [runModels_cons_go ctx sFalse total scenarios roles model rest st rfl]
      obtain ⟨stI, hrunI, hkeysI, hlenI, hpollsI, hgensI, hevalsI, hcurI, htpI⟩ :=
        runScens_sFalse ctx total model roles hgen scenarios
          (pollStep false false st)
      rw [hrunI]
      obtain ⟨stF, hrun, hkeys, hlen, hpolls, hgens, hevals, hcur, htp⟩ :=
        runModels_sFalse ctx total scenarios roles hgen rest stI
      simp only [pollStep] at hkeysI hlenI hpollsI hgensI hevalsI hcurI htpI
      refine ⟨stF, hrun, ?_, ?_, ?_, ?_, ?_, ?_, ?_⟩
      · rw [hkeys, hkeysI]
        simp [modelsEnum]
      · rw [hlen, hlenI]
        simp
        ring
      · rw [hpolls, hpollsI]
        simp
        ring
      · rw [hgens, hgensI]
        simp
        ring
      · rw [hevals, hevalsI]
        simp
        ring
      · rw [hcur, hcurI]
        simp
        ring
      · rw [htp, htpI]
        simp [truePolls]

theorem modelsEnum_eq_prodEnum (n : Nat) (ms scenarios roles : List String) :
    modelsEnum n scenarios roles ms = prodEnum ms scenarios roles n := rfl

/-- C5: with no stop request and no generation failure, responses are appended
in exactly the nested cartesian-product order — models, then scenarios, then
roles, then iterations 1..N — so the i-th response's key is the i-th tuple of
that enumeration. -/
theorem C5_response_ordering (ctx : RunCtx) (models scenarios roles : List String)
    (hgen : genOk ctx) :
    ∃ run, (run_experiment_with_progress ctx sFalse models scenarios roles).result =
        .ok run ∧
      run.responses.map keyOf = prodEnum models scenarios roles ctx.num_iterations := by
  obtain ⟨stF, hrun, hkeys, _⟩ :=
    runModels_sFalse ctx
      (models.length * scenarios.length * roles.length * ctx.num_iterations)
      scenarios roles hgen models ⟨[], 0, 0, 0, 0, []⟩
  refine ⟨⟨ctx.run_id, ctx.timestamp, runConfig ctx models scenarios roles,
    stF.responses⟩, ?_, ?_⟩
  · simp only [run_experiment_with_progress, hrun]
  · rw [hkeys]
    simp [modelsEnum_eq_prodEnum]

/-- Witness for C5: the ordering example of the specification,
M=[m1,m2], S=[s1,s2], R=[r1], two iterations. -/
theorem C5_response_ordering_witness :
    ∃ run, (run_experiment_with_progress ctxEx sFalse
        ["m1", "m2"] ["s1", "s2"] ["r1"]).result = .ok run ∧
      run.responses.map keyOf =
        [("m1", "s1", "r1", 1), ("m1", "s1", "r1", 2),
         ("m1", "s2", "r1", 1), ("m1", "s2", "r1", 2),
         ("m2", "s1", "r1", 1), ("m2", "s1", "r1", 2),
         ("m2", "s2", "r1", 1), ("m2", "s2", "r1", 2)] := by
  obtain ⟨run, h1, h2⟩ :=
    C5_response_ordering ctxEx ["m1", "m2"] ["s1", "s2"] ["r1"]
      (fun _ => ⟨"text", rfl⟩)
  exact ⟨run, h1, h2.trans (by decide)⟩

theorem gpBlock_append (T : Nat) :
    ∀ (a : Nat) (g b : Nat), gpBlock g T (a + b) = gpBlock g T a ++ gpBlock (g + a) T b
  | 0, g, b => by simp [gpBlock]
  | a + 1, g, b => by
      simp only [gpBlock, Nat.succ_add, List.cons_append]
      rw [gpBlock_append T a (g + 1) b,
        show g + 1 + a = g + (a + 1) from by omega]

theorem runIters_gp (ctx : RunCtx) (stop : Nat → Bool) (total : Nat)
    (model sid rid prompt : String) :
    ∀ (its : List Nat) (st : RunSt), st.current = st.gens →
      ∃ n stF e,
        runIters ctx stop total model sid rid prompt its st = (stF, e) ∧
        stF.gens = st.gens + n ∧ stF.current = st.gens + n ∧
        gpSeq stF.trace = gpSeq st.trace ++ gpBlock st.gens total n
  | [], st, h => ⟨0, st, none, rfl, by simp, by simp [h], by simp [gpBlock]⟩
  | it :: rest, st, h => by
      rcases hb1 : stop st.polls
      case true =>
        rw [runIters_cons_break ctx stop total model sid rid prompt it rest st hb1]
        exact ⟨0, _, none, rfl, by simp [pollStep], by simp [pollStep, h],
          by simp [pollStep, gpSeq, gpBlock]⟩
      case false =>
        rcases ht : ctx.gen st.gens with e | t
        · rw [runIters_cons_genErr ctx stop total model sid rid prompt it rest st e hb1 ht]
          refine ⟨1, _, some e, rfl, by simp, by simp [h], ?_⟩
          simp [gpSeq, gpBlock, h]
        · rcases hb2 : stop (st.polls + 1)
          case true =>
            rw [runIters_cons_midBreak ctx stop total model sid rid prompt it rest st t
              hb1 ht hb2]
            refine ⟨1, _, none, rfl, by simp, by simp [h], ?_⟩
            simp [gpSeq, gpBlock, h]
          case false =>
            rw [runIters_cons_ok ctx stop total model sid rid prompt it rest st t
              hb1 ht hb2]
            have h5 : (unitStep ctx total model sid rid prompt it st t).current =
                (unitStep ctx total model sid rid prompt it st t).gens := by
              simp [unitStep, h]
            obtain ⟨n, stF, e, hrun, hg, hc, hgp⟩ :=
              runIters_gp ctx stop total model sid rid prompt rest
                (unitStep ctx total model sid rid prompt it st t) h5
            refine ⟨n + 1, stF, e, hrun, ?_, ?_, ?_⟩
            · simp only [unitStep] at hg
              rw [hg]
              omega
            · simp only [unitStep] at hc
              rw [hc]
              omega
            · rw [hgp]
              simp only [unitStep, gpSeq, gpBlock]
              simp [gpSeq, gpBlock, h]

theorem runRoles_gp (ctx : RunCtx) (stop : Nat → Bool) (total : Nat)
    (model sid : String) (scenario : Scenario) :
    ∀ (rids : List String) (st : RunSt), st.current = st.gens →
      ∃ n stF e,
        runRoles ctx stop total model sid scenario rids st = (stF, e) ∧
        stF.gens = st.gens + n ∧ stF.current = st.gens + n ∧
        gpSeq stF.trace = gpSeq st.trace ++ gpBlock st.gens total n
  | [], st, h => ⟨0, st, none, rfl, by simp, by simp [h], by simp [gpBlock]⟩
  | rid :: rest, st, h => by
      rcases hb : stop st.polls
      case true =>
        rw [runRoles_cons_break ctx stop total model sid scenario rid rest st hb]
        exact ⟨0, _, none, rfl, by simp [pollStep], by simp [pollStep, h],
          by simp [pollStep, gpSeq, gpBlock]⟩
      case false =>
        rw [runRoles_cons_go ctx stop total model sid scenario rid rest st hb]
        have hps : (pollStep false false st).current = (pollStep false false st).gens := by
          simp [pollStep, h]
        obtain ⟨nI, stI, eI, hrunI, hgI, hcI, hgpI⟩ :=
          runIters_gp ctx stop total model sid rid
            (build_prompt scenario (ctx.roleDefs rid))
            (List.range' 1 ctx.num_iterations) (pollStep false false st) hps
        rw [hrunI]
        simp only [pollStep] at hgI hcI
        have hgpI' : gpSeq stI.trace = gpSeq st.trace ++ gpBlock st.gens total nI := by
          rw [hgpI]
          simp [pollStep, gpSeq]
        rcases eI with _ | e
        · have hI : stI.current = stI.gens := by rw [hcI, hgI]
          obtain ⟨n2, stF, e2, hrun2, hg2, hc2, hgp2⟩ :=
            runRoles_gp ctx stop total model sid scenario rest stI hI
          refine ⟨nI + n2, stF, e2, hrun2, ?_, ?_, ?_⟩
          · rw [hg2, hgI]
            omega
          · rw [hc2, hgI]
            omega
          · rw [hgp2, hgpI', hgI, gpBlock_append]
            simp
        · refine ⟨nI, stI, some e, rfl, hgI, hcI, hgpI'⟩

theorem runScens_gp (ctx : RunCtx) (stop : Nat → Bool) (total : Nat)
    (model : String) (roles : List String) :
    ∀ (sids : List String) (st : RunSt), st.current = st.gens →
      ∃ n stF e,
        runScens ctx stop total model roles sids st = (stF, e) ∧
        stF.gens = st.gens + n ∧ stF.current = st.gens + n ∧
        gpSeq stF.trace = gpSeq st.trace ++ gpBlock st.gens total n
  | [], st, h => ⟨0, st, none, rfl, by simp, by simp [h], by simp [gpBlock]⟩
  | sid :: rest, st, h => by
      rcases hb : stop st.polls
      case true =>
        rw [runScens_cons_break ctx stop total model roles sid rest st hb]
        exact ⟨0, _, none, rfl, by simp [pollStep], by simp [pollStep, h],
          by simp [pollStep, gpSeq, gpBlock]⟩
      case false =>
        rw [runScens_cons_go ctx stop total model roles sid rest st hb]
        have hps : (pollStep false false st).current = (pollStep false false st).gens := by
          simp [pollStep, h]
        obtain ⟨nI, stI, eI, hrunI, hgI, hcI, hgpI⟩ :=
          runRoles_gp ctx stop total model sid (ctx.scenarioDefs sid) roles
            (pollStep false false st) hps
        rw [hrunI]
        simp only [pollStep] at hgI hcI
        have hgpI' : gpSeq stI.trace = gpSeq st.trace ++ gpBlock st.gens total nI := by
          rw [hgpI]
          simp [pollStep, gpSeq]
        rcases eI with _ | e
        · have hI : stI.current = stI.gens := by rw [hcI, hgI]
          obtain ⟨n2, stF, e2, hrun2, hg2, hc2, hgp2⟩ :=
            runScens_gp ctx stop total model roles rest stI hI
          refine ⟨nI + n2, stF, e2, hrun2, ?_, ?_, ?_⟩
          · rw [hg2, hgI]
            omega
          · rw [hc2, hgI]
            omega
          · rw [hgp2, hgpI', hgI, gpBlock_append]
            simp
        · refine ⟨nI, stI, some e, rfl, hgI, hcI, hgpI'⟩

theorem runModels_gp (ctx : RunCtx) (stop : Nat → Bool) (total : Nat)
    (scenarios roles : List String) :
    ∀ (ms : List String) (st : RunSt), st.current = st.gens →
      ∃ n stF e,
        runModels ctx stop total scenarios roles ms st = (stF, e) ∧
        stF.gens = st.gens + n ∧ stF.current = st.gens + n ∧
        gpSeq stF.trace = gpSeq st.trace ++ gpBlock st.gens total n
  | [], st, h => ⟨0, st, none, rfl, by simp, by simp [h], by simp [gpBlock]⟩
  | model :: rest, st, h => by
      rcases hb : stop st.polls
      case true =>
        rw [runModels_cons_break ctx stop total scenarios roles model rest st hb]
        exact ⟨0, _, none, rfl, by simp [pollStep], by simp [pollStep, h],
          by simp [pollStep, gpSeq, gpBlock]⟩
      case false =>
        rw [runModels_cons_go ctx stop total scenarios roles model rest st hb]
        have hps : (pollStep false false st).current = (pollStep false false st).gens := by
          simp [pollStep, h]
        obtain ⟨nI, stI, eI, hrunI, hgI, hcI, hgpI⟩ :=
          runScens_gp ctx stop total model roles scenarios (pollStep false false st) hps
        rw [hrunI]
        simp only [pollStep] at hgI hcI
        have hgpI' : gpSeq stI.trace = gpSeq st.trace ++ gpBlock st.gens total nI := by
          rw [hgpI]
          simp [pollStep, gpSeq]
        rcases eI with _ | e
        · have hI : stI.current = stI.gens := by rw [hcI, hgI]
          obtain ⟨n2, stF, e2, hrun2, hg2, hc2, hgp2⟩ :=
            runModels_gp ctx stop total scenarios roles rest stI hI
          refine ⟨nI + n2, stF, e2, hrun2, ?_, ?_, ?_⟩
          · rw [hg2, hgI]
            omega
          · rw [hc2, hgI]
            omega
          · rw [hgp2, hgpI', hgI, gpBlock_append]
            simp
        · refine ⟨nI, stI, some e, rfl, hgI, hcI, hgpI'⟩

/-- C3 (counterexample): the claim says the progress callback is invoked after
each completed work unit with `completedCount` counting units already
finished; on a concrete 1×1×1×2 run the first callback (`current = 1`) fires
when zero units have completed (no `append` precedes it in the trace). -/
theorem C3_counterexample :
    ¬ (∀ i c t msg,
        (run_experiment_with_progress ctxEx sFalse ["m1"] ["s1"] ["r1"]).trace.get? i =
          some (.progress c t msg) →
        c = countAppends
          ((run_experiment_with_progress ctxEx sFalse ["m1"] ["s1"] ["r1"]).trace.take i)) := by
  intro h
  have h1 := h 4 1 2 (progressMsg "m1" "s1" "r1" 1) (by decide)
  have h2 : countAppends
      ((run_experiment_with_progress ctxEx sFalse ["m1"] ["s1"] ["r1"]).trace.take 4) = 0 := by
    decide
  rw [h2] at h1
  cases h1

/-- C3 (amended): the progress callback is invoked exactly once per started
work unit, immediately before its generation call, with
(startedCount, totalCount, message) where startedCount counts the current unit
as started (it is the generation index plus one), and totalCount is
|models| × |scenarios| × |roles| × iterations, computed once up front and
identical in every invocation — for every stop flag and every generation
outcome. -/
theorem C3_progress_before_each_generation (ctx : RunCtx) (stop : Nat → Bool)
    (models scenarios roles : List String) :
    gpSeq (run_experiment_with_progress ctx stop models scenarios roles).trace =
      gpBlock 0
        (models.length * scenarios.length * roles.length * ctx.num_iterations)
        (run_experiment_with_progress ctx stop models scenarios roles).finalState.gens := by
  obtain ⟨n, stF, e, hrun, hg, hc, hgp⟩ :=
    runModels_gp ctx stop
      (models.length * scenarios.length * roles.length * ctx.num_iterations)
      scenarios roles models ⟨[], 0, 0, 0, 0, []⟩ rfl
  have hout : run_experiment_with_progress ctx stop models scenarios roles =
      ⟨stF.trace,
       match e with
       | some err => .error err
       | none => .ok ⟨ctx.run_id, ctx.timestamp,
           runConfig ctx models scenarios roles, stF.responses⟩,
       stF⟩ := by
    rcases e with _ | err <;> simp only [run_experiment_with_progress, hrun]
  rw [hout]
  simp only []
  rw [hgp, hg]
  simp [gpSeq]

/-- C1 (counterexample): on a concrete 1×1×1×2 run whose second generation
call raises after one work unit has completed (one `append` is in the trace),
the orchestrator propagates the exception and no run containing the
accumulated response is handed back or persisted: the result is the error and
`run_experiment_async` records status `error` with nothing saved. -/
theorem C1_counterexample :
    countAppends
      (run_experiment_with_progress ctxGenErr sFalse ["m1"] ["s1"] ["r1"]).trace = 1 ∧
    (run_experiment_with_progress ctxGenErr sFalse ["m1"] ["s1"] ["r1"]).result =
      .error "boom" ∧
    ¬ ∃ run : ExperimentRun,
        ((run_experiment_with_progress ctxGenErr sFalse ["m1"] ["s1"] ["r1"]).result =
          .ok run ∨
         (run_experiment_async
           (run_experiment_with_progress ctxGenErr sFalse ["m1"] ["s1"] ["r1"])
           false).savedRun = some run) := by
  refine ⟨by decide, by rfl, ?_⟩
  rintro ⟨run, h | h⟩
  · rw [show (run_experiment_with_progress ctxGenErr sFalse ["m1"] ["s1"] ["r1"]).result =
      .error "boom" from by rfl] at h
    cases h
  · rw [show (run_experiment_async
      (run_experiment_with_progress ctxGenErr sFalse ["m1"] ["s1"] ["r1"])
      false).savedRun = none from by rfl] at h
    cases h

/-- C1 (amended): when a generation call raises, the exception propagates out
of the orchestrator — no `ExperimentRun` is returned — and the async wrapper
records status `error` carrying the message, persisting nothing: the responses
accumulated before the failure are discarded. -/
theorem C1_generation_error_discards_responses (ctx : RunCtx) (stop : Nat → Bool)
    (models scenarios roles : List String) (e : String) (stoppedAfter : Bool)
    (h : (run_experiment_with_progress ctx stop models scenarios roles).result =
      .error e) :
    run_experiment_async (run_experiment_with_progress ctx stop models scenarios roles)
        stoppedAfter =
      ⟨"error", some e, none⟩ := by
  simp [run_experiment_async, h]

/-- Witness for C1 (amended) at the concrete failing run. -/
theorem C1_generation_error_discards_responses_witness :
    run_experiment_async
        (run_experiment_with_progress ctxGenErr sFalse ["m1"] ["s1"] ["r1"]) false =
      ⟨"error", some "boom", none⟩ :=
  C1_generation_error_discards_responses ctxGenErr sFalse ["m1"] ["s1"] ["r1"]
    "boom" false (by rfl)

theorem stopT_false {p i : Nat} (h : i < p) : stopT p i = false := by
  simp only [stopT, decide_eq_false_iff_not]
  omega

theorem stopT_true {p i : Nat} (h : p ≤ i) : stopT p i = true := by
  simp [stopT, h]

theorem runRoles_dead (ctx : RunCtx) (p : Nat) (total : Nat) (model sid : String)
    (scenario : Scenario) (rids : List String) (st : RunSt) (hp : p < st.polls) :
    ∃ stF l, runRoles ctx (stopT p) total model sid scenario rids st = (stF, none) ∧
      stF.responses = st.responses ∧ stF.gens = st.gens ∧ stF.evals = st.evals ∧
      p < stF.polls ∧ truePolls stF.trace = truePolls st.trace ++ l := by
  cases rids with
  | nil => exact ⟨st, [], rfl, rfl, rfl, rfl, hp, by simp⟩
  | cons rid rest =>
      rw [runRoles_cons_break ctx (stopT p) total model sid scenario rid rest st
        (stopT_true (by omega))]
      exact ⟨pollStep true false st, [(st.polls, st.responses.length, false)],
        rfl, rfl, rfl, rfl, by simp [pollStep]; omega, by simp [pollStep, truePolls]⟩

theorem runScens_dead (ctx : RunCtx) (p : Nat) (total : Nat) (model : String)
    (roles : List String) (sids : List String) (st : RunSt) (hp : p < st.polls) :
    ∃ stF l, runScens ctx (stopT p) total model roles sids st = (stF, none) ∧
      stF.responses = st.responses ∧ stF.gens = st.gens ∧ stF.evals = st.evals ∧
      p < stF.polls ∧ truePolls stF.trace = truePolls st.trace ++ l := by
  cases sids with
  | nil => exact ⟨st, [], rfl, rfl, rfl, rfl, hp, by simp⟩
  | cons sid rest =>
      rw [runScens_cons_break ctx (stopT p) total model roles sid rest st
        (stopT_true (by omega))]
      exact ⟨pollStep true false st, [(st.polls, st.responses.length, false)],
        rfl, rfl, rfl, rfl, by simp [pollStep]; omega, by simp [pollStep, truePolls]⟩

theorem runModels_dead (ctx : RunCtx) (p : Nat) (total : Nat)
    (scenarios roles : List String) (ms : List String) (st : RunSt)
    (hp : p < st.polls) :
    ∃ stF l, runModels ctx (stopT p) total scenarios roles ms st = (stF, none) ∧
      stF.responses = st.responses ∧ stF.gens = st.gens ∧ stF.evals = st.evals ∧
      p < stF.polls ∧ truePolls stF.trace = truePolls st.trace ++ l := by
  cases ms with
  | nil => exact ⟨st, [], rfl, rfl, rfl, rfl, hp, by simp⟩
  | cons model rest =>
      rw [runModels_cons_break ctx (stopT p) total scenarios roles model rest st
        (stopT_true (by omega))]
      exact ⟨pollStep true false st, [(st.polls, st.responses.length, false)],
        rfl, rfl, rfl, rfl, by simp [pollStep]; omega, by simp [pollStep, truePolls]⟩

theorem runIters_beyond (ctx : RunCtx) (p : Nat) (total : Nat)
    (model sid rid prompt : String) (hgen : genOk ctx) :
    ∀ (its : List Nat) (st : RunSt), st.polls + 2 * its.length ≤ p →
      runIters ctx (stopT p) total model sid rid prompt its st =
        runIters ctx sFalse total model sid rid prompt its st
  | [], _, _ => rfl
  | it :: rest, st, h => by
      simp only [List.length_cons] at h
      obtain ⟨t, ht⟩ := hgen st.gens
      rw [runIters_cons_ok ctx (stopT p) total model sid rid prompt it rest st t
          (stopT_false (by omega)) ht (stopT_false (by omega)),
        runIters_cons_ok ctx sFalse total model sid rid prompt it rest st t
          rfl ht rfl]
      exact runIters_beyond ctx p total model sid rid prompt hgen rest
        (unitStep ctx total model sid rid prompt it st t) (by simp [unitStep]; omega)

theorem runRoles_beyond (ctx : RunCtx) (p : Nat) (total : Nat) (model sid : String)
    (scenario : Scenario) (hgen : genOk ctx) :
    ∀ (rids : List String) (st : RunSt),
      st.polls + rids.length * (1 + 2 * ctx.num_iterations) ≤ p →
      runRoles ctx (stopT p) total model sid scenario rids st =
        runRoles ctx sFalse total model sid scenario rids st
  | [], _, _ => rfl
  | rid :: rest, st, h => by
      rw [List.length_cons, Nat.succ_mul] at h
      rw [runRoles_cons_go ctx (stopT p) total model sid scenario rid rest st
          (stopT_false (by omega)),
        runRoles_cons_go ctx sFalse total model sid scenario rid rest st rfl]
      rw [runIters_beyond ctx p total model sid rid
        (build_prompt scenario (ctx.roleDefs rid)) hgen
        (List.range' 1 ctx.num_iterations) (pollStep false false st)
        (by simp only [pollStep, List.length_range']; omega)]
      obtain ⟨stI, hrunI, _, _, hpollsI, _, _, _, _⟩ :=
        runIters_sFalse ctx total model sid rid
          (build_prompt scenario (ctx.roleDefs rid)) hgen
          (List.range' 1 ctx.num_iterations) (pollStep false false st)
      rw [hrunI]
      simp only [pollStep] at hpollsI
      exact runRoles_beyond ctx p total model sid scenario hgen rest stI
        (by rw [hpollsI]; simp only [pollStep, List.length_range']; omega)

theorem runScens_beyond (ctx : RunCtx) (p : Nat) (total : Nat) (model : String)
    (roles : List String) (hgen : genOk ctx) :
    ∀ (sids : List String) (st : RunSt),
      st.polls + sids.length *
        (1 + roles.length * (1 + 2 * ctx.num_iterations)) ≤ p →
      runScens ctx (stopT p) total model roles sids st =
        runScens ctx sFalse total model roles sids st
  | [], _, _ => rfl
  | sid :: rest, st, h => by
      rw [List.length_cons, Nat.succ_mul] at h
      rw [runScens_cons_go ctx (stopT p) total model roles sid rest st
          (stopT_false (by omega)),
        runScens_cons_go ctx sFalse total model roles sid rest st rfl]
      rw [runRoles_beyond ctx p total model sid (ctx.scenarioDefs sid) hgen roles
        (pollStep false false st) (by simp only [pollStep, List.length_range']; omega)]
      obtain ⟨stI, hrunI, _, _, hpollsI, _, _, _, _⟩ :=
        runRoles_sFalse ctx total model sid (ctx.scenarioDefs sid) hgen roles
          (pollStep false false st)
      rw [hrunI]
      simp only [pollStep] at hpollsI
      exact runScens_beyond ctx p total model roles hgen rest stI
        (by rw [hpollsI]; omega)

theorem runModels_beyond (ctx : RunCtx) (p : Nat) (total : Nat)
    (scenarios roles : List String) (hgen : genOk ctx) :
    ∀ (ms : List String) (st : RunSt),
      st.polls + ms.length *
        (1 + scenarios.length * (1 + roles.length * (1 + 2 * ctx.num_iterations))) ≤ p →
      runModels ctx (stopT p) total scenarios roles ms st =
        runModels ctx sFalse total scenarios roles ms st
  | [], _, _ => rfl
  | model :: rest, st, h => by
      rw [List.length_cons, Nat.succ_mul] at h
      rw [runModels_cons_go ctx (stopT p) total scenarios roles model rest st
          (stopT_false (by omega)),
        runModels_cons_go ctx sFalse total scenarios roles model rest st rfl]
      rw [runScens_beyond ctx p total model roles hgen scenarios
        (pollStep false false st) (by simp only [pollStep, List.length_range']; omega)]
      obtain ⟨stI, hrunI, _, _, hpollsI, _, _, _, _⟩ :=
        runScens_sFalse ctx total model roles hgen scenarios
          (pollStep false false st)
      rw [hrunI]
      simp only [pollStep] at hpollsI
      exact runModels_beyond ctx p total scenarios roles hgen rest stI
        (by rw [hpollsI]; omega)

theorem runIters_trunc (ctx : RunCtx) (p : Nat) (total : Nat)
    (model sid rid prompt : String) (hgen : genOk ctx) :
    ∀ (its : List Nat) (st : RunSt), st.polls ≤ p → p < st.polls + 2 * its.length →
      ∃ stF j m l,
        runIters ctx (stopT p) total model sid rid prompt its st = (stF, none) ∧
        j ≤ its.length ∧
        stF.responses.map keyOf = st.responses.map keyOf ++
          (itersEnum model sid rid its).take j ∧
        stF.responses.length = st.responses.length + j ∧
        (m = false → stF.gens = st.gens + j) ∧
        (m = true → stF.gens = st.gens + j + 1) ∧
        stF.evals = st.evals + j ∧
        p < stF.polls ∧
        truePolls stF.trace = truePolls st.trace ++
          ((p, st.responses.length + j, m) :: l)
  | [], st, h1, h2 => by
      exfalso
      simp at h2
      omega
  | it :: rest, st, h1, h2 => by
      rcases Nat.eq_or_lt_of_le h1 with heq | hlt
      · rw [runIters_cons_break ctx (stopT p) total model sid rid prompt it rest st
          (stopT_true (by omega))]
        refine ⟨pollStep true false st, 0, false, [], rfl, by omega, by simp [pollStep],
          by simp [pollStep], by simp [pollStep], (by intro hmm; cases hmm),
          by simp [pollStep], (by simp [pollStep]; omega), ?_⟩
        simp [pollStep, truePolls, heq]
      · obtain ⟨t, ht⟩ := hgen st.gens
        rcases Nat.eq_or_lt_of_le (Nat.succ_le_of_lt hlt) with heq2 | hlt2
        · rw [runIters_cons_midBreak ctx (stopT p) total model sid rid prompt it rest
            st t (stopT_false hlt) ht (stopT_true (by omega))]
          refine ⟨_, 0, true, [], rfl, by omega, by simp, by simp,
            (by intro hmm; cases hmm), by simp, by simp, (by simp; omega), ?_⟩
          simp [truePolls]
          omega
        · rw [runIters_cons_ok ctx (stopT p) total model sid rid prompt it rest st t
            (stopT_false hlt) ht (stopT_false hlt2)]
          simp only [List.length_cons] at h2
          obtain ⟨stF, j, m, l, hrun, hj, hkeys, hlen, hgf, hgt, hevals, hp, htp⟩ :=
            runIters_trunc ctx p total model sid rid prompt hgen rest
              (unitStep ctx total model sid rid prompt it st t)
              (by simp [unitStep]; omega) (by simp [unitStep]; omega)
          refine ⟨stF, j + 1, m, l, hrun, (by simp; omega), ?_, ?_, ?_, ?_, ?_, hp, ?_⟩
          · rw [hkeys]
            simp [unitStep, unitResp, itersEnum, keyOf]
          · simp only [unitStep] at hlen
            simp at hlen
            omega
          · intro hm
            have := hgf hm
            simp only [unitStep] at this
            omega
          · intro hm
            have := hgt hm
            simp only [unitStep] at this
            omega
          · have hu : (unitStep ctx total model sid rid prompt it st t).evals =
                st.evals + 1 := rfl
            omega
          · rw [htp]
            simp only [unitStep]
            simp [truePolls]
            omega

theorem itersEnum_length (model sid rid : String) (its : List Nat) :
    (itersEnum model sid rid its).length = its.length := by
  simp [itersEnum]

theorem runRoles_trunc (ctx : RunCtx) (p : Nat) (total : Nat) (model sid : String)
    (scenario : Scenario) (hgen : genOk ctx) :
    ∀ (rids : List String) (st : RunSt), st.polls ≤ p →
      p < st.polls + rids.length * (1 + 2 * ctx.num_iterations) →
      ∃ stF j m l,
        runRoles ctx (stopT p) total model sid scenario rids st = (stF, none) ∧
        j ≤ rids.length * ctx.num_iterations ∧
        stF.responses.map keyOf = st.responses.map keyOf ++
          (rolesEnum ctx.num_iterations model sid rids).take j ∧
        stF.responses.length = st.responses.length + j ∧
        (m = false → stF.gens = st.gens + j) ∧
        (m = true → stF.gens = st.gens + j + 1) ∧
        stF.evals = st.evals + j ∧
        p < stF.polls ∧
        truePolls stF.trace = truePolls st.trace ++
          ((p, st.responses.length + j, m) :: l)
  | [], st, h1, h2 => by
      exfalso
      simp at h2
      omega
  | rid :: rest, st, h1, h2 => by
      rcases Nat.eq_or_lt_of_le h1 with heq | hlt
      · rw [runRoles_cons_break ctx (stopT p) total model sid scenario rid rest st
          (stopT_true (by omega))]
        refine ⟨pollStep true false st, 0, false, [], rfl, by simp, by simp [pollStep],
          by simp [pollStep], by simp [pollStep], (by intro hmm; cases hmm),
          by simp [pollStep], (by simp [pollStep]; omega), ?_⟩
        simp [pollStep, truePolls, heq]
      · rw [runRoles_cons_go ctx (stopT p) total model sid scenario rid rest st
          (stopT_false hlt)]
        rw [List.length_cons, Nat.succ_mul] at h2
        by_cases hcase : p < st.polls + 1 + 2 * ctx.num_iterations
        · obtain ⟨stI, j, m, l, hrunI, hj, hkeysI, hlenI, hgfI, hgtI, hevalsI, hpI, htpI⟩ :=
            runIters_trunc ctx p total model sid rid
              (build_prompt scenario (ctx.roleDefs rid)) hgen
              (List.range' 1 ctx.num_iterations) (pollStep false false st)
              (by simp [pollStep]; omega)
              (by simp [pollStep, List.length_range']; omega)
          rw [hrunI]
          obtain ⟨stF, l₂, hrunD, hrespD, hgD, heD, hpD, htpD⟩ :=
            runRoles_dead ctx p total model sid scenario rest stI (by omega)
          simp only [List.length_range'] at hj
          simp only [pollStep] at hkeysI hlenI hgfI hgtI hevalsI htpI
          refine ⟨stF, j, m, l ++ l₂, hrunD, ?_, ?_, ?_, ?_, ?_, ?_, by omega, ?_⟩
          · rw [List.length_cons, Nat.succ_mul]
            have : 0 ≤ rest.length * ctx.num_iterations := Nat.zero_le _
            omega
          · rw [hrespD, hkeysI]
            have hre : rolesEnum ctx.num_iterations model sid (rid :: rest) =
                itersEnum model sid rid (List.range' 1 ctx.num_iterations) ++
                  rolesEnum ctx.num_iterations model sid rest := by
              simp [rolesEnum]
            rw [hre, List.take_append_of_le_length
              (by rw [itersEnum_length, List.length_range']; exact hj)]
          · rw [hrespD, hlenI]
          · intro hm
            rw [hrespD] at *
            rw [hgD, hgfI hm]
          · intro hm
            rw [hgD, hgtI hm]
          · rw [heD, hevalsI]
          · rw [htpD, htpI]
            simp [truePolls]
        · rw [runIters_beyond ctx p total model sid rid
            (build_prompt scenario (ctx.roleDefs rid)) hgen
            (List.range' 1 ctx.num_iterations) (pollStep false false st)
            (by simp [pollStep, List.length_range']; omega)]
          obtain ⟨stI, hrunI, hkeysI, hlenI, hpollsI, hgensI, hevalsI, hcurI, htpI⟩ :=
            runIters_sFalse ctx total model sid rid
              (build_prompt scenario (ctx.roleDefs rid)) hgen
              (List.range' 1 ctx.num_iterations) (pollStep false false st)
          rw [hrunI]
          simp only [pollStep, List.length_range'] at hlenI hpollsI hgensI
          simp only [pollStep, List.length_range'] at hevalsI htpI hkeysI
          obtain ⟨stF, j₂, m, l, hrun2, hj2, hkeys2, hlen2, hgf2, hgt2, hevals2, hp2, htp2⟩ :=
            runRoles_trunc ctx p total model sid scenario hgen rest stI
              (by omega) (by omega)
          refine ⟨stF, ctx.num_iterations + j₂, m, l, hrun2, ?_, ?_, ?_, ?_, ?_, ?_,
            hp2, ?_⟩
          · rw [List.length_cons, Nat.succ_mul]
            omega
          · rw [hkeys2, hkeysI]
            have hre : rolesEnum ctx.num_iterations model sid (rid :: rest) =
                itersEnum model sid rid (List.range' 1 ctx.num_iterations) ++
                  rolesEnum ctx.num_iterations model sid rest := by
              simp [rolesEnum]
            rw [hre]
            rw [show ctx.num_iterations + j₂ =
              (itersEnum model sid rid (List.range' 1 ctx.num_iterations)).length + j₂
              from by rw [itersEnum_length, List.length_range']]
            rw [List.take_append]
            simp
          · rw [hlen2, hlenI]
            omega
          · intro hm
            rw [hgf2 hm, hgensI]
            omega
          · intro hm
            rw [hgt2 hm, hgensI]
            omega
          · rw [hevals2, hevalsI]
            omega
          · have harith : st.responses.length + (ctx.num_iterations + j₂) =
                st.responses.length + ctx.num_iterations + j₂ := by omega
            rw [harith, htp2, hlenI, htpI]
            simp [truePolls]

theorem rolesEnum_length (n : Nat) (model sid : String) :
    ∀ rids : List String, (rolesEnum n model sid rids).length = rids.length * n
  | [] => by simp [rolesEnum]
  | rid :: rest => by
      have := rolesEnum_length n model sid rest
      simp only [rolesEnum, List.flatMap_cons] at *
      rw [List.length_append, itersEnum_length, List.length_range', this,
        List.length_cons, Nat.succ_mul]
      omega

theorem scensEnum_length (n : Nat) (model : String) (roles : List String) :
    ∀ sids : List String,
      (scensEnum n model roles sids).length = sids.length * (roles.length * n)
  | [] => by simp [scensEnum]
  | sid :: rest => by
      have := scensEnum_length n model roles rest
      simp only [scensEnum, List.flatMap_cons] at *
      rw [List.length_append, rolesEnum_length, this, List.length_cons, Nat.succ_mul]
      omega

theorem runScens_trunc (ctx : RunCtx) (p : Nat) (total : Nat) (model : String)
    (roles : List String) (hgen : genOk ctx) :
    ∀ (sids : List String) (st : RunSt), st.polls ≤ p →
      p < st.polls + sids.length *
        (1 + roles.length * (1 + 2 * ctx.num_iterations)) →
      ∃ stF j m l,
        runScens ctx (stopT p) total model roles sids st = (stF, none) ∧
        j ≤ sids.length * (roles.length * ctx.num_iterations) ∧
        stF.responses.map keyOf = st.responses.map keyOf ++
          (scensEnum ctx.num_iterations model roles sids).take j ∧
        stF.responses.length = st.responses.length + j ∧
        (m = false → stF.gens = st.gens + j) ∧
        (m = true → stF.gens = st.gens + j + 1) ∧
        stF.evals = st.evals + j ∧
        p < stF.polls ∧
        truePolls stF.trace = truePolls st.trace ++
          ((p, st.responses.length + j, m) :: l)
  | [], st, h1, h2 => by
      exfalso
      simp at h2
      omega
  | sid :: rest, st, h1, h2 => by
      rcases Nat.eq_or_lt_of_le h1 with heq | hlt
      · rw [runScens_cons_break ctx (stopT p) total model roles sid rest st
          (stopT_true (by omega))]
        refine ⟨pollStep true false st, 0, false, [], rfl, by simp, by simp [pollStep],
          by simp [pollStep], by simp [pollStep], (by intro hmm; cases hmm),
          by simp [pollStep], (by simp [pollStep]; omega), ?_⟩
        simp [pollStep, truePolls, heq]
      · rw [runScens_cons_go ctx (stopT p) total model roles sid rest st
          (stopT_false hlt)]
        rw [List.length_cons, Nat.succ_mul] at h2
        by_cases hcase : p < st.polls + 1 +
            roles.length * (1 + 2 * ctx.num_iterations)
        · obtain ⟨stI, j, m, l, hrunI, hj, hkeysI, hlenI, hgfI, hgtI, hevalsI, hpI, htpI⟩ :=
            runRoles_trunc ctx p total model sid (ctx.scenarioDefs sid) hgen roles
              (pollStep false false st)
              (by simp [pollStep]; omega) (by simp [pollStep]; omega)
          rw [hrunI]
          obtain ⟨stF, l₂, hrunD, hrespD, hgD, heD, hpD, htpD⟩ :=
            runScens_dead ctx p total model roles rest stI (by omega)
          simp only [pollStep] at hkeysI hlenI hgfI hgtI hevalsI htpI
          refine ⟨stF, j, m, l ++ l₂, hrunD, ?_, ?_, ?_, ?_, ?_, ?_, by omega, ?_⟩
          · rw [List.length_cons, Nat.succ_mul]
            omega
          · rw [hrespD, hkeysI]
            have hre : scensEnum ctx.num_iterations model roles (sid :: rest) =
                rolesEnum ctx.num_iterations model sid roles ++
                  scensEnum ctx.num_iterations model roles rest := by
              simp [scensEnum]
            rw [hre, List.take_append_of_le_length
              (by rw [rolesEnum_length]; exact hj)]
          · rw [hrespD, hlenI]
          · intro hm
            rw [hgD, hgfI hm]
          · intro hm
            rw [hgD, hgtI hm]
          · rw [heD, hevalsI]
          · rw [htpD, htpI]
            simp [truePolls]
        · rw [runRoles_beyond ctx p total model sid (ctx.scenarioDefs sid) hgen roles
            (pollStep false false st) (by simp [pollStep]; omega)]
          obtain ⟨stI, hrunI, hkeysI, hlenI, hpollsI, hgensI, hevalsI, hcurI, htpI⟩ :=
            runRoles_sFalse ctx total model sid (ctx.scenarioDefs sid) hgen roles
              (pollStep false false st)
          rw [hrunI]
          simp only [pollStep] at hlenI hpollsI hgensI
          simp only [pollStep] at hevalsI htpI hkeysI
          obtain ⟨stF, j₂, m, l, hrun2, hj2, hkeys2, hlen2, hgf2, hgt2, hevals2, hp2, htp2⟩ :=
            runScens_trunc ctx p total model roles hgen rest stI
              (by omega) (by omega)
          refine ⟨stF, roles.length * ctx.num_iterations + j₂, m, l, hrun2, ?_, ?_, ?_,
            ?_, ?_, ?_, hp2, ?_⟩
          · rw [List.length_cons, Nat.succ_mul]
            omega
          · rw [hkeys2, hkeysI]
            have hre : scensEnum ctx.num_iterations model roles (sid :: rest) =
                rolesEnum ctx.num_iterations model sid roles ++
                  scensEnum ctx.num_iterations model roles rest := by
              simp [scensEnum]
            rw [hre]
            rw [show roles.length * ctx.num_iterations + j₂ =
              (rolesEnum ctx.num_iterations model sid roles).length + j₂
              from by rw [rolesEnum_length]]
            rw [List.take_append]
            simp
          · rw [hlen2, hlenI]
            omega
          · intro hm
            rw [hgf2 hm, hgensI]
            omega
          · intro hm
            rw [hgt2 hm, hgensI]
            omega
          · rw [hevals2, hevalsI]
            omega
          · have harith : st.responses.length +
                (roles.length * ctx.num_iterations + j₂) =
                st.responses.length + roles.length * ctx.num_iterations + j₂ := by
              omega
            rw [harith, htp2, hlenI, htpI]
            simp [truePolls]

theorem runModels_trunc (ctx : RunCtx) (p : Nat) (total : Nat)
    (scenarios roles : List String) (hgen : genOk ctx) :
    ∀ (ms : List String) (st : RunSt), st.polls ≤ p →
      p < st.polls + ms.length *
        (1 + scenarios.length * (1 + roles.length * (1 + 2 * ctx.num_iterations))) →
      ∃ stF j m l,
        runModels ctx (stopT p) total scenarios roles ms st = (stF, none) ∧
        j ≤ ms.length * (scenarios.length * (roles.length * ctx.num_iterations)) ∧
        stF.responses.map keyOf = st.responses.map keyOf ++
          (modelsEnum ctx.num_iterations scenarios roles ms).take j ∧
        stF.responses.length = st.responses.length + j ∧
        (m = false → stF.gens = st.gens + j) ∧
        (m = true → stF.gens = st.gens + j + 1) ∧
        stF.evals = st.evals + j ∧
        p < stF.polls ∧
        truePolls stF.trace = truePolls st.trace ++
          ((p, st.responses.length + j, m) :: l)
  | [], st, h1, h2 => by
      exfalso
      simp at h2
      omega
  | model :: rest, st, h1, h2 => by
      rcases Nat.eq_or_lt_of_le h1 with heq | hlt
      · rw [runModels_cons_break ctx (stopT p) total scenarios roles model rest st
          (stopT_true (by omega))]
        refine ⟨pollStep true false st, 0, false, [], rfl, by simp, by simp [pollStep],
          by simp [pollStep], by simp [pollStep], (by intro hmm; cases hmm),
          by simp [pollStep], (by simp [pollStep]; omega), ?_⟩
        simp [pollStep, truePolls, heq]
      · rw [runModels_cons_go ctx (stopT p) total scenarios roles model rest st
          (stopT_false hlt)]
        rw [List.length_cons, Nat.succ_mul] at h2
        by_cases hcase : p < st.polls + 1 +
            scenarios.length * (1 + roles.length * (1 + 2 * ctx.num_iterations))
        · obtain ⟨stI, j, m, l, hrunI, hj, hkeysI, hlenI, hgfI, hgtI, hevalsI, hpI, htpI⟩ :=
            runScens_trunc ctx p total model roles hgen scenarios
              (pollStep false false st)
              (by simp [pollStep]; omega) (by simp [pollStep]; omega)
          rw [hrunI]
          obtain ⟨stF, l₂, hrunD, hrespD, hgD, heD, hpD, htpD⟩ :=
            runModels_dead ctx p total scenarios roles rest stI (by omega)
          simp only [pollStep] at hkeysI hlenI hgfI hgtI hevalsI htpI
          refine ⟨stF, j, m, l ++ l₂, hrunD, ?_, ?_, ?_, ?_, ?_, ?_, by omega, ?_⟩
          · rw [List.length_cons, Nat.succ_mul]
            omega
          · rw [hrespD, hkeysI]
            have hre : modelsEnum ctx.num_iterations scenarios roles (model :: rest) =
                scensEnum ctx.num_iterations model roles scenarios ++
                  modelsEnum ctx.num_iterations scenarios roles rest := by
              simp [modelsEnum]
            rw [hre, List.take_append_of_le_length
              (by rw [scensEnum_length]; exact hj)]
          · rw [hrespD, hlenI]
          · intro hm
            rw [hgD, hgfI hm]
          · intro hm
            rw [hgD, hgtI hm]
          · rw [heD, hevalsI]
          · rw [htpD, htpI]
            simp [truePolls]
        · rw [runScens_beyond ctx p total model roles hgen scenarios
            (pollStep false false st) (by simp [pollStep]; omega)]
          obtain ⟨stI, hrunI, hkeysI, hlenI, hpollsI, hgensI, hevalsI, hcurI, htpI⟩ :=
            runScens_sFalse ctx total model roles hgen scenarios
              (pollStep false false st)
          rw [hrunI]
          simp only [pollStep] at hlenI hpollsI hgensI
          simp only [pollStep] at hevalsI htpI hkeysI
          obtain ⟨stF, j₂, m, l, hrun2, hj2, hkeys2, hlen2, hgf2, hgt2, hevals2, hp2, htp2⟩ :=
            runModels_trunc ctx p total scenarios roles hgen rest stI
              (by omega) (by omega)
          refine ⟨stF, scenarios.length * (roles.length * ctx.num_iterations) + j₂, m,
            l, hrun2, ?_, ?_, ?_, ?_, ?_, ?_, hp2, ?_⟩
          · rw [List.length_cons, Nat.succ_mul]
            omega
          · rw [hkeys2, hkeysI]
            have hre : modelsEnum ctx.num_iterations scenarios roles (model :: rest) =
                scensEnum ctx.num_iterations model roles scenarios ++
                  modelsEnum ctx.num_iterations scenarios roles rest := by
              simp [modelsEnum]
            rw [hre]
            rw [show scenarios.length * (roles.length * ctx.num_iterations) + j₂ =
              (scensEnum ctx.num_iterations model roles scenarios).length + j₂
              from by rw [scensEnum_length]]
            rw [List.take_append]
            simp
          · rw [hlen2, hlenI]
            omega
          · intro hm
            rw [hgf2 hm, hgensI]
            omega
          · intro hm
            rw [hgt2 hm, hgensI]
            omega
          · rw [hevals2, hevalsI]
            omega
          · have harith : st.responses.length +
                (scenarios.length * (roles.length * ctx.num_iterations) + j₂) =
                st.responses.length +
                  scenarios.length * (roles.length * ctx.num_iterations) + j₂ := by
              omega
            rw [harith, htp2, hlenI, htpI]
            simp [truePolls]

/-- C4: if the stop flag turns true at a poll taken between work units — the
first poll that observes it answers at a loop top (not mid-unit) with k
responses appended — the finalized run contains exactly the first k
ResponseRecords of the cartesian-product enumeration, never k+1 or more;
already-appended responses are never removed at any nesting level. -/
theorem C4_cancellation_exact_first_k (ctx : RunCtx) (p : Nat)
    (models scenarios roles : List String) (k : Nat) (hgen : genOk ctx)
    (hhead : (truePolls
        (run_experiment_with_progress ctx (stopT p) models scenarios roles).trace).head? =
      some (p, k, false)) :
    ∃ run, (run_experiment_with_progress ctx (stopT p) models scenarios roles).result =
        .ok run ∧
      run.responses.length = k ∧
      run.responses.map keyOf =
        (prodEnum models scenarios roles ctx.num_iterations).take k := by
  by_cases hrange : p < models.length *
      (1 + scenarios.length * (1 + roles.length * (1 + 2 * ctx.num_iterations)))
  · obtain ⟨stF, j, m, l, hrun, hj, hkeys, hlen, hgf, hgt, hevals, hp, htp⟩ :=
      runModels_trunc ctx p
        (models.length * scenarios.length * roles.length * ctx.num_iterations)
        scenarios roles hgen models ⟨[], 0, 0, 0, 0, []⟩ (Nat.zero_le p)
        (by simpa using hrange)
    have hout : run_experiment_with_progress ctx (stopT p) models scenarios roles =
        ⟨stF.trace,
         .ok ⟨ctx.run_id, ctx.timestamp, runConfig ctx models scenarios roles,
           stF.responses⟩, stF⟩ := by
      simp only [run_experiment_with_progress, hrun]
    rw [hout] at hhead ⊢
    rw [htp] at hhead
    simp only [truePolls, List.filterMap_nil, List.nil_append, List.head?_cons,
      Option.some.injEq, Prod.mk.injEq] at hhead
    obtain ⟨-, hjk, hm⟩ := hhead
    subst hm
    refine ⟨_, rfl, ?_, ?_⟩
    · simp only []
      rw [hlen]
      simpa using hjk
    · simp only []
      rw [hkeys]
      rw [show j = k from by simpa using hjk]
      simp [modelsEnum_eq_prodEnum]
  · exfalso
    have hb := runModels_beyond ctx p
      (models.length * scenarios.length * roles.length * ctx.num_iterations)
      scenarios roles hgen models ⟨[], 0, 0, 0, 0, []⟩ (by simpa using hrange)
    obtain ⟨stF, hrun, _, _, _, _, _, _, htp⟩ :=
      runModels_sFalse ctx
        (models.length * scenarios.length * roles.length * ctx.num_iterations)
        scenarios roles hgen models ⟨[], 0, 0, 0, 0, []⟩
    have hout : run_experiment_with_progress ctx (stopT p) models scenarios roles =
        ⟨stF.trace,
         .ok ⟨ctx.run_id, ctx.timestamp, runConfig ctx models scenarios roles,
           stF.responses⟩, stF⟩ := by
      simp only [run_experiment_with_progress, hb, hrun]
    rw [hout] at hhead
    rw [htp] at hhead
    simp [truePolls] at hhead

/-- Witness for C4: a 1×1×1×2 run stopped between unit 1 and unit 2 (the
threshold-5 flag turns true at the loop-top poll after one append) yields
exactly the first response. -/
theorem C4_cancellation_exact_first_k_witness :
    ∃ run, (run_experiment_with_progress ctxEx (stopT 5) ["m1"] ["s1"] ["r1"]).result =
        .ok run ∧
      run.responses.length = 1 ∧
      run.responses.map keyOf = [("m1", "s1", "r1", 1)] := by
  obtain ⟨run, h1, h2, h3⟩ :=
    C4_cancellation_exact_first_k ctxEx 5 ["m1"] ["s1"] ["r1"] 1
      (fun _ => ⟨"text", rfl⟩) (by decide)
  exact ⟨run, h1, h2, h3.trans (by decide)⟩

/-- C10: if the stop flag turns true in the window after a unit's generation
call returns and before its evaluation starts — the first poll that observes
it is the mid-unit poll, with k responses appended — that unit's generated
response is discarded entirely: the evaluator is never called for it
(`evals = k` while `gens = k + 1`) and it is never appended, so the final run
contains exactly the first k responses. -/
theorem C10_midunit_stop_discards_generation (ctx : RunCtx) (p : Nat)
    (models scenarios roles : List String) (k : Nat) (hgen : genOk ctx)
    (hhead : (truePolls
        (run_experiment_with_progress ctx (stopT p) models scenarios roles).trace).head? =
      some (p, k, true)) :
    ∃ run, (run_experiment_with_progress ctx (stopT p) models scenarios roles).result =
        .ok run ∧
      run.responses.length = k ∧
      run.responses.map keyOf =
        (prodEnum models scenarios roles ctx.num_iterations).take k ∧
      (run_experiment_with_progress ctx (stopT p) models scenarios roles).finalState.gens =
        k + 1 ∧
      (run_experiment_with_progress ctx (stopT p) models scenarios roles).finalState.evals =
        k := by
  by_cases hrange : p < models.length *
      (1 + scenarios.length * (1 + roles.length * (1 + 2 * ctx.num_iterations)))
  · obtain ⟨stF, j, m, l, hrun, hj, hkeys, hlen, hgf, hgt, hevals, hp, htp⟩ :=
      runModels_trunc ctx p
        (models.length * scenarios.length * roles.length * ctx.num_iterations)
        scenarios roles hgen models ⟨[], 0, 0, 0, 0, []⟩ (Nat.zero_le p)
        (by simpa using hrange)
    have hout : run_experiment_with_progress ctx (stopT p) models scenarios roles =
        ⟨stF.trace,
         .ok ⟨ctx.run_id, ctx.timestamp, runConfig ctx models scenarios roles,
           stF.responses⟩, stF⟩ := by
      simp only [run_experiment_with_progress, hrun]
    rw [hout] at hhead ⊢
    rw [htp] at hhead
    simp only [truePolls, List.filterMap_nil, List.nil_append, List.head?_cons,
      Option.some.injEq, Prod.mk.injEq] at hhead
    obtain ⟨-, hjk, hm⟩ := hhead
    have hjk' : j = k := by simpa using hjk
    subst hjk'
    refine ⟨_, rfl, ?_, ?_, ?_, ?_⟩
    · simp only []
      rw [hlen]
      simp
    · simp only []
      rw [hkeys]
      simp [modelsEnum_eq_prodEnum]
    · simp only []
      rw [hgt hm]
      simp
    · simp only []
      rw [hevals]
      simp
  · exfalso
    have hb := runModels_beyond ctx p
      (models.length * scenarios.length * roles.length * ctx.num_iterations)
      scenarios roles hgen models ⟨[], 0, 0, 0, 0, []⟩ (by simpa using hrange)
    obtain ⟨stF, hrun, _, _, _, _, _, _, htp⟩ :=
      runModels_sFalse ctx
        (models.length * scenarios.length * roles.length * ctx.num_iterations)
        scenarios roles hgen models ⟨[], 0, 0, 0, 0, []⟩
    have hout : run_experiment_with_progress ctx (stopT p) models scenarios roles =
        ⟨stF.trace,
         .ok ⟨ctx.run_id, ctx.timestamp, runConfig ctx models scenarios roles,
           stF.responses⟩, stF⟩ := by
      simp only [run_experiment_with_progress, hb, hrun]
    rw [hout] at hhead
    rw [htp] at hhead
    simp [truePolls] at hhead

/-- Witness for C10: a 1×1×1×2 run whose flag turns true at the mid-unit poll
of unit 2 (threshold 6, one append so far): unit 2's generation is discarded —
two generation calls, one evaluation, one response. -/
theorem C10_midunit_stop_discards_generation_witness :
    ∃ run, (run_experiment_with_progress ctxEx (stopT 6) ["m1"] ["s1"] ["r1"]).result =
        .ok run ∧
      run.responses.length = 1 ∧
      run.responses.map keyOf = [("m1", "s1", "r1", 1)] ∧
      (run_experiment_with_progress ctxEx (stopT 6) ["m1"] ["s1"] ["r1"]).finalState.gens =
        2 ∧
      (run_experiment_with_progress ctxEx (stopT 6) ["m1"] ["s1"] ["r1"]).finalState.evals =
        1 := by
  obtain ⟨run, h1, h2, h3, h4, h5⟩ :=
    C10_midunit_stop_discards_generation ctxEx 6 ["m1"] ["s1"] ["r1"] 1
      (fun _ => ⟨"text", rfl⟩) (by decide)
  exact ⟨run, h1, h2, h3.trans (by decide), h4, h5⟩
